import Mathlib

/-!
# Verification development for `examples/dba/app/main.go`

A shallow embedding of the "bad PostgreSQL application": configuration
lookup, bootstrap (`initializeData`), and one cycle of each of the seven
scenario generators.  Every generator cycle is a function from the outcomes
chosen by the environment (which statements the server fails, which values
the random source returns, which rows a result set holds) to the ordered
list of actions the Go code performs.
-/

namespace BadApp

/-! ## Configuration (`getEnv`, `getEnvInt`, head of `main`) -/

/-- The process environment: a variable is unset (`none`) or has a value. -/
abbrev Env := String → Option String

/-- Go `os.Getenv`: the value of the variable, `""` when it is unset. -/
def Getenv (env : Env) (key : String) : String :=
  (env key).getD ""

/-- Source `getEnv` (main.go 19-24). -/
def getEnv (env : Env) (key defaultValue : String) : String :=
  let value := Getenv env key
  if value ≠ "" then value else defaultValue

/-- Source `getEnvInt` (main.go 26-33).  `atoi` stands for `strconv.Atoi`:
`some n` is a parse without error, `none` is `err != nil`. -/
def getEnvInt (atoi : String → Option Int) (env : Env) (key : String)
    (defaultValue : Int) : Int :=
  let value := Getenv env key
  if value ≠ "" then
    match atoi value with
    | some intValue => intValue
    | none => defaultValue
  else defaultValue

/-- Decimal digit value of a character, if it is one of `0`..`9`. -/
def digitVal (c : Char) : Option Nat :=
  if 48 ≤ c.toNat ∧ c.toNat ≤ 57 then some (c.toNat - 48) else none

/-- Value of a non-empty string of decimal digits. -/
def digitsVal : List Char → Option Nat
  | [] => none
  | cs => cs.foldl (fun acc c => match acc, digitVal c with
      | some a, some d => some (a * 10 + d)
      | _, _ => none) (some 0)

/-- A model of Go `strconv.Atoi`: an optional sign, then one or more decimal
digits, and the value has to fit a 64-bit `int`. -/
def strconvAtoi (s : String) : Option Int :=
  let signed : Bool × List Char :=
    match s.data with
    | '-' :: cs => (true, cs)
    | '+' :: cs => (false, cs)
    | cs => (false, cs)
  match digitsVal signed.2 with
  | none => none
  | some n =>
    let v : Int := if signed.1 then -(n : Int) else (n : Int)
    if -(2 : Int) ^ 63 ≤ v ∧ v < (2 : Int) ^ 63 then some v else none

/-- The database settings `main` reads (main.go 44-48). -/
structure Config where
  dbHost : String
  dbPort : Int
  dbUser : String
  dbPassword : String
  dbName : String
deriving DecidableEq, Repr

/-- Source `main`, lines 44-48: the five configuration lookups. -/
def mainConfig (atoi : String → Option Int) (env : Env) : Config :=
  { dbHost := getEnv env "DB_HOST" "postgres"
    dbPort := getEnvInt atoi env "DB_PORT" 5432
    dbUser := getEnv env "DB_USER" "postgres"
    dbPassword := getEnv env "DB_PASSWORD" "mysecretpassword"
    dbName := getEnv env "DB_NAME" "postgres" }

/-- The environment in which no variable is set. -/
def emptyEnv : Env := fun _ => none

/-! ## Actions -/

/-- The four tables of the schema. -/
inductive Table
  | users | orders | audit_log | large_table
deriving DecidableEq, Repr

/-- The SQL statements the program sends.  Floating point arguments
(`rand.Float64()*1000` and the like) are carried as the raw draw they were
computed from. -/
inductive Stmt
  /-- SQL `CREATE TABLE IF NOT EXISTS t (...)` -/
  | createTable (t : Table)
  /-- SQL `INSERT INTO users ... ON CONFLICT (username) DO NOTHING` -/
  | insertUser (username email : String) (balanceDraw : Nat)
  /-- SQL `INSERT INTO large_table (data, random_number) VALUES ($1, $2)` -/
  | insertLarge (data : String) (randomNumber : Nat)
  /-- SQL `SELECT * FROM users WHERE id = $1 FOR UPDATE` -/
  | selectForUpdate (id : Nat)
  /-- SQL `UPDATE users SET updated_at = CURRENT_TIMESTAMP WHERE id = $1` -/
  | touchUser (id : Nat)
  /-- SQL `UPDATE users SET balance = balance + $1, updated_at = ... WHERE id = $2` -/
  | addBalance (amountDraw : Nat) (id : Nat)
  /-- The join and aggregation over `users` and `orders` (main.go 277-284) -/
  | joinOrders
  /-- The scan of `large_table` with `UPPER(data) LIKE` (main.go 312-317) -/
  | scanLarge
  /-- SQL `SELECT pg_sleep(15), * FROM users LIMIT 1` -/
  | sleepUsers
  /-- SQL `INSERT INTO audit_log ... VALUES ($1, $2, $3, $4, $5)` -/
  | insertAudit (recordId : Nat) (oldDraw newDraw : Nat)
  /-- SQL `UPDATE users SET balance = $1, updated_at = ... WHERE id = $2` -/
  | setBalance (balanceDraw : Nat) (id : Nat)
  /-- SQL `DELETE FROM audit_log WHERE created_at < NOW() - INTERVAL '1 minute'` -/
  | deleteOldAudit
  /-- SQL `UPDATE users SET balance = balance + 10 WHERE id = <id>` -/
  | addTen (id : Nat)
  /-- The hourly aggregation over `large_table` (main.go 486-496) -/
  | aggregateLarge
deriving DecidableEq, Repr

/-- One action of a goroutine, in program order.  `ok` is the outcome the
environment chose for the call (`true`: `err == nil`). -/
inductive Event
  /-- Go `log.Printf` / `log.Println` with the format string and its integer
  arguments (the error value is left out) -/
  | log (fmt : String) (args : List Nat)
  /-- Go `app.db.Begin()` -/
  | begin (ok : Bool)
  /-- Go `Exec`; `inTx` tells `tx.Exec` from `app.db.Exec` -/
  | exec (inTx : Bool) (s : Stmt) (ok : Bool)
  /-- Go `Query` (no deadline) or `QueryContext` under a deadline in ms -/
  | query (deadlineMs : Option Nat) (s : Stmt) (ok : Bool)
  /-- Go `cancel()` of the context -/
  | cancel
  /-- Go `rows.Next()` and what it returned -/
  | next (more : Bool)
  /-- Go `rows.Scan(...)` -/
  | scan (ok : Bool)
  /-- Go `rows.Close()` -/
  | rowsClose
  /-- Go `tx.Commit()` -/
  | commit
  /-- Go `tx.Rollback()` -/
  | rollback
  /-- Go `time.Sleep`, in milliseconds -/
  | sleep (ms : Nat)
  /-- Go `wg.Done()` of a sub-task -/
  | done
deriving DecidableEq, Repr

/-- Go `rand.Intn(n)`: the raw draw of the random source reduced to `[0, n)`. -/
def Intn (n raw : Nat) : Nat := raw % n

/-- Go `fmt.Sprintf("%d", i)` for a non-negative `i`. -/
def fmtD (i : Nat) : String := Nat.repr i

/-! ## Bootstrap (`initializeData`) and the tail of `main` -/

/-- What the environment decides during bootstrap. -/
structure BootOracle where
  /-- Outcome of each `CREATE TABLE` -/
  createOk : Table → Bool
  /-- Outcome of the insert of `user<i>` -/
  userOk : Nat → Bool
  /-- Outcome of the `i`-th insert into `large_table` -/
  largeOk : Nat → Bool
  /-- Go `rand.Float64()` drawn for `user<i>` -/
  balanceDraw : Nat → Nat
  /-- Raw draw behind `rand.Intn(1000)` for the `i`-th large row -/
  numberDraw : Nat → Nat

/-- The `queries` slice of `initializeData` (main.go 111-142). -/
def queries : List Table :=
  [Table.users, Table.orders, Table.audit_log, Table.large_table]

/-- The loop of main.go 144-148: execute the statements in order and return
at the first one that fails (`some t`: the failing statement). -/
def createTables (o : BootOracle) : List Table → List Event × Option Table
  | [] => ([], none)
  | t :: ts =>
    if o.createOk t then
      let r := createTables o ts
      (Event.exec false (Stmt.createTable t) true :: r.1, r.2)
    else ([Event.exec false (Stmt.createTable t) false], some t)

/-- The statement of main.go 153-158 for loop index `i`. -/
def userInsert (o : BootOracle) (i : Nat) : Stmt :=
  Stmt.insertUser ("user" ++ fmtD i) ("user" ++ fmtD i ++ "@example.com") (o.balanceDraw i)

/-- The loop of main.go 152-162, `n` iterations starting at index `i`. -/
def seedUsers (o : BootOracle) : Nat → Nat → List Event
  | 0, _ => []
  | n + 1, i =>
    (if o.userOk i then [Event.exec false (userInsert o i) true]
     else [Event.exec false (userInsert o i) false,
           Event.log "Error inserting user %d: %v" [i]])
    ++ seedUsers o n (i + 1)

/-- The statement of main.go 166-170 for loop index `i`. -/
def largeInsert (o : BootOracle) (i : Nat) : Stmt :=
  Stmt.insertLarge
    ("Large data entry " ++ fmtD i ++ " with lots of text to make it bigger")
    (Intn 1000 (o.numberDraw i))

/-- The loop of main.go 165-174, `n` iterations starting at index `i`. -/
def seedLarge (o : BootOracle) : Nat → Nat → List Event
  | 0, _ => []
  | n + 1, i =>
    (if o.largeOk i then [Event.exec false (largeInsert o i) true]
     else [Event.exec false (largeInsert o i) false,
           Event.log "Error inserting large_table %d: %v" [i]])
    ++ seedLarge o n (i + 1)

/-- Result of `initializeData`: what it did, and the statement named in the
error it returned (`none`: it returned `nil`). -/
structure BootResult where
  trace : List Event
  err : Option Table

/-- Source `initializeData` (main.go 107-178). -/
def initializeData (o : BootOracle) : BootResult :=
  let c := createTables o queries
  match c.2 with
  | some t =>
    { trace := Event.log "Initializing database tables and data..." [] :: c.1
      err := some t }
  | none =>
    { trace := Event.log "Initializing database tables and data..." [] :: c.1
        ++ [Event.log "Inserting initial data..." []]
        ++ seedUsers o 1000 1
        ++ seedLarge o 10000 1
        ++ [Event.log "Database initialization complete!" []]
      err := none }

/-- The seven generators `main` starts, in the order of main.go 83-101. -/
inductive Generator
  | longRunningTransactions | lockContentionScenario | inefficientQueries
  | connectionPoolExhaustion | heavyWriteOperations | deadlockScenarios
  | slowTableScans
deriving DecidableEq, Repr

/-- The `log.Fatal` calls of `main` that can end the process. -/
inductive Fatal
  /-- Go `log.Fatal("Failed to connect to database:", err)` (main.go 56) -/
  | connect
  /-- Go `log.Fatal("Failed to initialize data:", err)` (main.go 69) -/
  | bootstrap
  /-- Go `log.Fatal(http.ListenAndServe(":8080", nil))` in the metrics
  goroutine (main.go 76) -/
  | metrics
deriving DecidableEq, Repr

/-- What `main` did after reading the configuration. -/
structure MainResult where
  /-- The `log.Fatal` that ended the process, if any -/
  fatal : Option Fatal
  /-- The actions of `initializeData`, if it was called -/
  boot : List Event
  /-- Whether the metrics goroutine of main.go 73-77 was started -/
  metrics : Bool
  /-- The generators started with `go` -/
  started : List Generator

/-- The `go` statements of main.go 83-101, in order. -/
def generators : List Generator :=
  [Generator.longRunningTransactions, Generator.lockContentionScenario,
   Generator.inefficientQueries, Generator.connectionPoolExhaustion,
   Generator.heavyWriteOperations, Generator.deadlockScenarios,
   Generator.slowTableScans]

/-- Source `main`, lines 54-104.  `openOk` is the outcome of `sql.Open`.
`listen` is what happens in the metrics goroutine: `none` when
`http.ListenAndServe` keeps serving, `some k` when it returns an error, upon
which `log.Fatal` ends the process when `main` has started `k` of the
generators (all of them for `k ≥ 7`). -/
def main (openOk : Bool) (o : BootOracle) (listen : Option Nat) : MainResult :=
  if openOk then
    let r := initializeData o
    match r.err with
    | some _ =>
      { fatal := some Fatal.bootstrap, boot := r.trace, metrics := false, started := [] }
    | none =>
      match listen with
      | none => { fatal := none, boot := r.trace, metrics := true, started := generators }
      | some k =>
        { fatal := some Fatal.metrics, boot := r.trace, metrics := true
          started := generators.take k }
  else { fatal := some Fatal.connect, boot := [], metrics := false, started := [] }

/-! ## The database as the bootstrap statements see it -/

/-- The part of the PostgreSQL state the bootstrap statements read or write:
which tables exist, the `(username, email)` rows of `users` (`username` is
`UNIQUE`), and the rows of `large_table` (no key besides the serial id). -/
structure DB where
  tables : List Table
  users : List (String × String)
  largeRows : List (String × Nat)
deriving DecidableEq, Repr

/-- The empty, schema-absent database. -/
def DB.empty : DB := { tables := [], users := [], largeRows := [] }

/-- Effect of one successfully executed statement.  `CREATE TABLE IF NOT
EXISTS` skips an existing table; `ON CONFLICT (username) DO NOTHING` skips a
row whose username is present; the insert into `large_table` always adds a
row.  The other statements touch nothing that is tracked here. -/
def DB.applyStmt (db : DB) : Stmt → DB
  | Stmt.createTable t =>
    if t ∈ db.tables then db else { db with tables := db.tables ++ [t] }
  | Stmt.insertUser username email _ =>
    if username ∈ db.users.map Prod.fst then db
    else { db with users := db.users ++ [(username, email)] }
  | Stmt.insertLarge data n => { db with largeRows := db.largeRows ++ [(data, n)] }
  | _ => db

/-- Effect of one action: only a statement that succeeded changes the data. -/
def DB.applyEvent (db : DB) : Event → DB
  | Event.exec _ s true => db.applyStmt s
  | _ => db

/-- The database after a sequence of actions. -/
def DB.run (db : DB) (t : List Event) : DB := t.foldl DB.applyEvent db

/-- The oracle under which every bootstrap statement succeeds. -/
def allOk : BootOracle :=
  { createOk := fun _ => true, userOk := fun _ => true, largeOk := fun _ => true
    balanceDraw := fun _ => 0, numberDraw := fun _ => 0 }

/-! ## Generator 1: `longRunningTransactions` (main.go 181-218) -/

/-- What the environment decides during one cycle of generator 1. -/
structure LongOracle where
  beginOk : Bool
  selectOk : Bool
  /-- Outcome of the update of loop iteration `i` -/
  updateOk : Nat → Bool
  selectDraw : Nat
  updateDraw : Nat → Nat

/-- The loop of main.go 205-212: `n` iterations left, loop variable `i`.
A failing update is logged and leaves the loop (`break`). -/
def longUpdates (o : LongOracle) : Nat → Nat → List Event
  | 0, _ => []
  | n + 1, i =>
    if o.updateOk i then
      Event.exec true (Stmt.touchUser (Intn 100 (o.updateDraw i) + 1)) true
        :: Event.sleep 2000 :: longUpdates o n (i + 1)
    else
      [Event.exec true (Stmt.touchUser (Intn 100 (o.updateDraw i) + 1)) false,
       Event.log "Error in long transaction update: %v" []]

/-- One pass through the body of the `for` of `longRunningTransactions`. -/
def longRunningCycle (o : LongOracle) : List Event :=
  if o.beginOk then
    if o.selectOk then
      [Event.begin true,
       Event.exec true (Stmt.selectForUpdate (Intn 100 o.selectDraw + 1)) true,
       Event.log "Holding transaction for 30 seconds..." [],
       Event.sleep 30000]
      ++ longUpdates o 10 0
      ++ [Event.commit, Event.log "Long transaction completed" [], Event.sleep 10000]
    else
      [Event.begin true,
       Event.exec true (Stmt.selectForUpdate (Intn 100 o.selectDraw + 1)) false,
       Event.log "Error in long transaction: %v" [],
       Event.rollback,
       Event.sleep 5000]
  else
    [Event.begin false, Event.log "Error starting transaction: %v" [], Event.sleep 5000]

/-! ## Generator 2: `lockContentionScenario` (main.go 221-269) -/

/-- What the environment decides for one sub-task of generator 2. -/
structure LockOracle where
  beginOk : Bool
  selectOk : Bool
  updateOk : Bool
  targetDraw : Nat
  sleepDraw : Nat
  amountDraw : Nat

/-- Source `targetID := rand.Intn(10) + 1` (main.go 241). -/
def targetID (o : LockOracle) : Nat := Intn 10 o.targetDraw + 1

/-- The goroutine body of main.go 230-263.  The deferred `tx.Rollback()` and
`wg.Done()` run, in that order, on every return after their `defer`. -/
def lockTask (goroutineID : Nat) (o : LockOracle) : List Event :=
  if o.beginOk then
    [Event.begin true,
     Event.log "Goroutine %d: Attempting to lock user %d" [goroutineID, targetID o]]
    ++ (if o.selectOk then
      [Event.exec true (Stmt.selectForUpdate (targetID o)) true,
       Event.sleep ((Intn 10 o.sleepDraw + 5) * 1000)]
      ++ (if o.updateOk then
        [Event.exec true (Stmt.addBalance o.amountDraw (targetID o)) true,
         Event.commit,
         Event.log "Goroutine %d: Successfully updated user %d" [goroutineID, targetID o]]
      else
        [Event.exec true (Stmt.addBalance o.amountDraw (targetID o)) false,
         Event.log "Goroutine %d: Error updating: %v" [goroutineID]])
    else
      [Event.exec true (Stmt.selectForUpdate (targetID o)) false,
       Event.log "Goroutine %d: Error selecting for update: %v" [goroutineID]])
    ++ [Event.rollback, Event.done]
  else
    [Event.begin false,
     Event.log "Goroutine %d: Error starting transaction: %v" [goroutineID],
     Event.done]

/-- Where the generator goroutine is inside one cycle. -/
inductive Pc
  /-- In the loop of main.go 228-264 -/
  | spawning
  /-- In `wg.Wait()` (main.go 266) -/
  | waiting
  /-- In the `time.Sleep(15 * time.Second)` of main.go 267 -/
  | cooldown
deriving DecidableEq, Repr

/-- State of one cycle of generator 2 with its sub-tasks. -/
structure Cycle where
  pc : Pc
  /-- The loop variable of main.go 228 -/
  i : Nat
  /-- The counter of the `sync.WaitGroup` -/
  wg : Nat
  /-- For each started sub-task: the actions it has performed and the ones it
  still has to perform -/
  tasks : List (List Event × List Event)
deriving DecidableEq, Repr

/-- The state at the top of the `for` body (main.go 225). -/
def Cycle.init : Cycle := { pc := Pc.spawning, i := 0, wg := 0, tasks := [] }

/-- Who the scheduler lets run next. -/
inductive Choice
  | generator
  | task (j : Nat)
deriving DecidableEq, Repr

/-- The WaitGroup counter after a sub-task performed `e`. -/
def wgAfter (wg : Nat) : Event → Nat
  | Event.done => wg - 1
  | _ => wg

/-- One scheduling step; `none` when the chosen goroutine cannot run (it is
blocked in `wg.Wait()`, has returned, or does not exist). -/
def Cycle.step (o : Nat → LockOracle) (c : Cycle) : Choice → Option Cycle
  | Choice.generator =>
    match c.pc with
    | Pc.spawning =>
      if c.i < 10 then
        some { c with i := c.i + 1, wg := c.wg + 1
                      tasks := c.tasks ++ [([], lockTask c.i (o c.i))] }
      else some { c with pc := Pc.waiting }
    | Pc.waiting => if c.wg = 0 then some { c with pc := Pc.cooldown } else none
    | Pc.cooldown => none
  | Choice.task j =>
    match c.tasks[j]? with
    | some (performed, e :: rest) =>
      some { c with wg := wgAfter c.wg e
                    tasks := c.tasks.set j (performed ++ [e], rest) }
    | _ => none

/-- Run a schedule from a state. -/
def Cycle.run (o : Nat → LockOracle) : List Choice → Cycle → Option Cycle
  | [], c => some c
  | ch :: rest, c =>
    match c.step o ch with
    | some c1 => Cycle.run o rest c1
    | none => none

/-- Number of `tx.Commit()` calls in a trace. -/
def commits (t : List Event) : Nat := t.count Event.commit

/-- Number of commits all sub-tasks of the cycle have issued so far. -/
def Cycle.commits (c : Cycle) : Nat := (c.tasks.map fun t => BadApp.commits t.1).sum

/-! ## Generator 3: `inefficientQueries` (main.go 272-324) -/

/-- What the environment decides during one cycle of generator 3. -/
structure IneffOracle where
  firstOk : Bool
  /-- The rows of the first result set: for each, the outcome of its `Scan` -/
  rows : List Bool
  secondOk : Bool

/-- The loop of main.go 290-306 with the running `count`; returns the actions
and the final `count`. -/
def ineffRows : List Bool → Nat → List Event × Nat
  | [], count => ([Event.next false], count)
  | true :: rest, count =>
    let r := ineffRows rest (count + 1)
    (Event.next true :: Event.scan true :: Event.sleep 100 :: r.1, r.2)
  | false :: rest, count =>
    let r := ineffRows rest count
    (Event.next true :: Event.scan false :: Event.log "Error scanning row: %v" [] :: r.1, r.2)

/-- One pass through the body of the `for` of `inefficientQueries`.  The
result set of the second query is assigned to `_`. -/
def inefficientCycle (o : IneffOracle) : List Event :=
  (if o.firstOk then
     Event.query none Stmt.joinOrders true :: (ineffRows o.rows 0).1
       ++ [Event.rowsClose,
           Event.log "Processed %d rows from inefficient query" [(ineffRows o.rows 0).2]]
   else
     [Event.query none Stmt.joinOrders false, Event.log "Error in inefficient query: %v" []])
  ++ (if o.secondOk then [Event.query none Stmt.scanLarge true]
      else [Event.query none Stmt.scanLarge false,
            Event.log "Error in full table scan query: %v" []])
  ++ [Event.sleep 20000]

/-! ## Generator 4: `connectionPoolExhaustion` (main.go 327-358) -/

/-- The goroutine body of main.go 336-352: `ok` is the outcome of the query,
`rows` the number of rows of its result set. -/
def poolTask (connID : Nat) (ok : Bool) (rows : Nat) : List Event :=
  if ok then
    Event.query none Stmt.sleepUsers true
      :: List.replicate rows (Event.next true)
      ++ [Event.next false,
          Event.log "Connection %d: Query completed" [connID],
          Event.rowsClose, Event.done]
  else
    [Event.query none Stmt.sleepUsers false,
     Event.log "Connection %d: Error in query: %v" [connID],
     Event.done]

/-! ## Generator 5: `heavyWriteOperations` (main.go 361-399) -/

/-- What the environment decides during one cycle of generator 5. -/
structure HeavyOracle where
  insertOk : Nat → Bool
  updateOk : Nat → Bool
  deleteOk : Bool
  /-- Raw draw behind `rand.Intn(1000)` of insert `i` -/
  recordDraw : Nat → Nat
  oldDraw : Nat → Nat
  newDraw : Nat → Nat
  balanceDraw : Nat → Nat
  /-- Raw draw behind `rand.Intn(1000)` of update `i` -/
  idDraw : Nat → Nat

/-- The statement of main.go 367-373 for loop index `i`. -/
def auditInsert (o : HeavyOracle) (i : Nat) : Stmt :=
  Stmt.insertAudit (Intn 1000 (o.recordDraw i) + 1) (o.oldDraw i) (o.newDraw i)

/-- The statement of main.go 381-384 for loop index `i`. -/
def balanceUpdate (o : HeavyOracle) (i : Nat) : Stmt :=
  Stmt.setBalance (o.balanceDraw i) (Intn 1000 (o.idDraw i) + 1)

/-- The loop of main.go 366-377, `n` iterations left, loop variable `i`. -/
def heavyInserts (o : HeavyOracle) : Nat → Nat → List Event
  | 0, _ => []
  | n + 1, i =>
    (if o.insertOk i then [Event.exec false (auditInsert o i) true]
     else [Event.exec false (auditInsert o i) false,
           Event.log "Error in bulk insert: %v" []])
    ++ heavyInserts o n (i + 1)

/-- The loop of main.go 380-388, `n` iterations left, loop variable `i`. -/
def heavyUpdates (o : HeavyOracle) : Nat → Nat → List Event
  | 0, _ => []
  | n + 1, i =>
    (if o.updateOk i then [Event.exec false (balanceUpdate o i) true]
     else [Event.exec false (balanceUpdate o i) false,
           Event.log "Error in bulk update: %v" []])
    ++ heavyUpdates o n (i + 1)

/-- One pass through the body of the `for` of `heavyWriteOperations`. -/
def heavyWriteCycle (o : HeavyOracle) : List Event :=
  heavyInserts o 1000 0
  ++ heavyUpdates o 500 0
  ++ (if o.deleteOk then [Event.exec false Stmt.deleteOldAudit true]
      else [Event.exec false Stmt.deleteOldAudit false,
            Event.log "Error in bulk delete: %v" []])
  ++ [Event.log "Completed heavy write cycle" [], Event.sleep 10000]

/-! ## Generator 6: `deadlockScenarios` (main.go 402-476) -/

/-- What the environment decides for one sub-task of generator 6. -/
structure DeadOracle where
  beginOk : Bool
  firstOk : Bool
  secondOk : Bool

/-- The first goroutine body (main.go 411-439). -/
def deadlockTask1 (o : DeadOracle) : List Event :=
  if o.beginOk then
    Event.begin true ::
    (if o.firstOk then
      [Event.exec true (Stmt.addTen 1) true, Event.sleep 2000]
      ++ (if o.secondOk then
        [Event.exec true (Stmt.addTen 2) true,
         Event.commit,
         Event.log "Deadlock scenario 1: Transaction completed successfully" []]
      else
        [Event.exec true (Stmt.addTen 2) false,
         Event.log "Deadlock scenario 1: Error updating user 2: %v" []])
    else
      [Event.exec true (Stmt.addTen 1) false,
       Event.log "Deadlock scenario 1: Error updating user 1: %v" []])
    ++ [Event.rollback, Event.done]
  else
    [Event.begin false,
     Event.log "Deadlock scenario 1: Error starting transaction: %v" [],
     Event.done]

/-- The second goroutine body (main.go 441-471). -/
def deadlockTask2 (o : DeadOracle) : List Event :=
  Event.sleep 500 ::
  if o.beginOk then
    Event.begin true ::
    (if o.firstOk then
      [Event.exec true (Stmt.addTen 2) true, Event.sleep 2000]
      ++ (if o.secondOk then
        [Event.exec true (Stmt.addTen 1) true,
         Event.commit,
         Event.log "Deadlock scenario 2: Transaction completed successfully" []]
      else
        [Event.exec true (Stmt.addTen 1) false,
         Event.log "Deadlock scenario 2: Error updating user 1: %v" []])
    else
      [Event.exec true (Stmt.addTen 2) false,
       Event.log "Deadlock scenario 2: Error updating user 2: %v" []])
    ++ [Event.rollback, Event.done]
  else
    [Event.begin false,
     Event.log "Deadlock scenario 2: Error starting transaction: %v" [],
     Event.done]

/-! ## Generator 7: `slowTableScans` (main.go 479-523) -/

/-- What the environment decides during one cycle of generator 7. -/
structure SlowOracle where
  /-- Outcome of `QueryContext`; a deadline that expires first is `false` -/
  queryOk : Bool
  /-- The rows of the result set: for each, the outcome of its `Scan` -/
  rows : List Bool

/-- The loop of main.go 504-516 with the running `count`. -/
def slowRows : List Bool → Nat → List Event × Nat
  | [], count => ([Event.next false], count)
  | true :: rest, count =>
    let r := slowRows rest (count + 1)
    (Event.next true :: Event.scan true :: r.1, r.2)
  | false :: rest, count =>
    let r := slowRows rest count
    (Event.next true :: Event.scan false
      :: Event.log "Error scanning aggregation row: %v" [] :: r.1, r.2)

/-- One pass through the body of the `for` of `slowTableScans`. -/
def slowScanCycle (o : SlowOracle) : List Event :=
  [Event.query (some 45000) Stmt.aggregateLarge o.queryOk, Event.cancel]
  ++ (if o.queryOk then
        (slowRows o.rows 0).1
        ++ [Event.rowsClose,
            Event.log "Completed slow aggregation query, processed %d result rows"
              [(slowRows o.rows 0).2]]
      else [Event.log "Error in slow table scan: %v" []])
  ++ [Event.sleep 25000]

/-- Source `slowTableScans`: the start-up log line and the first `n` passes
through the body of its `for`; `o k` is what the environment decides in
pass `k`. -/
def slowTableScans (o : Nat → SlowOracle) : Nat → List Event
  | 0 => [Event.log "Starting slow table scans..." []]
  | n + 1 => slowTableScans o n ++ slowScanCycle (o n)

/-! ## Observations on traces -/

/-- The deadline of an action, if it is a query issued under one. -/
def Event.deadline : Event → Option Nat
  | Event.query d _ _ => d
  | _ => none

/-- Whether the action sends a statement with `Exec` or `Query`. -/
def Event.isStmt : Event → Bool
  | Event.exec _ _ _ => true
  | Event.query _ _ _ => true
  | _ => false

/-- Whether the action is a statement that failed. -/
def Event.failed : Event → Bool
  | Event.exec _ _ false => true
  | Event.query _ _ false => true
  | _ => false

/-- The statement an action sends, if any. -/
def Event.stmt : Event → Option Stmt
  | Event.exec _ s _ => some s
  | Event.query _ s _ => some s
  | _ => none

/-- The statements of a trace, in order. -/
def stmts (t : List Event) : List Stmt := t.filterMap Event.stmt

/-- The actions that follow the first failed statement. -/
def afterFailure : List Event → Option (List Event)
  | [] => none
  | e :: es => if e.failed then some es else afterFailure es

/-- Actions that send nothing to the database except the rollback of the
open transaction: logging, `Rollback`, `cancel`, `wg.Done`, sleeping. -/
def Event.quiet : Event → Bool
  | Event.log _ _ => true
  | Event.rollback => true
  | Event.cancel => true
  | Event.done => true
  | Event.sleep _ => true
  | _ => false

/-- Whether the action is a log line. -/
def Event.isLog : Event → Bool
  | Event.log _ _ => true
  | _ => false

/-- The `users` row id a statement addresses, if it addresses one. -/
def Stmt.userId : Stmt → Option Nat
  | Stmt.selectForUpdate id => some id
  | Stmt.touchUser id => some id
  | Stmt.addBalance _ id => some id
  | Stmt.insertAudit recordId _ _ => some recordId
  | Stmt.setBalance _ id => some id
  | Stmt.addTen id => some id
  | _ => none

/-- The username a statement inserts, if it inserts one. -/
def Stmt.username : Stmt → Option String
  | Stmt.insertUser username _ _ => some username
  | _ => none

/-- The names `user1`, ..., `user<n>`. -/
def userNames (n : Nat) : List String := (List.range n).map fun k => "user" ++ fmtD (k + 1)

/-- Value of a string of decimal digits read from the left, starting at `a`. -/
def decodeFrom (a : Nat) (cs : List Char) : Nat :=
  cs.foldl (fun a c => a * 10 + (c.toNat - 48)) a

/-- Pool resources a goroutine holds: an open transaction and open result
sets. -/
structure Held where
  tx : Nat
  rows : Nat
deriving DecidableEq, Repr

/-- Effect of one action on what the goroutine holds.  A successful `Begin`
takes a connection until `Commit` or `Rollback`; a successful `Query` takes
one until `rows.Close()`.  `Commit`/`Rollback` on a finished transaction and
`Close` on closed rows do nothing. -/
def Held.after (h : Held) : Event → Held
  | Event.begin true => { h with tx := h.tx + 1 }
  | Event.commit => { h with tx := h.tx - 1 }
  | Event.rollback => { h with tx := h.tx - 1 }
  | Event.query _ _ true => { h with rows := h.rows + 1 }
  | Event.rowsClose => { h with rows := h.rows - 1 }
  | _ => h

/-- What a goroutine that started with nothing holds after a trace. -/
def held (t : List Event) : Held := t.foldl Held.after { tx := 0, rows := 0 }

/-- Actions that neither take nor release a pool resource and carry no
deadline: logging, `Exec`, sleeping, `rows.Next`, `rows.Scan`, `cancel`,
`wg.Done`. -/
def Event.plain : Event → Bool
  | Event.log _ _ => true
  | Event.exec _ _ _ => true
  | Event.sleep _ => true
  | Event.next _ => true
  | Event.scan _ => true
  | Event.cancel => true
  | Event.done => true
  | _ => false

/-- Whether every failed statement of a trace is followed by a log line as
the next action, the `cancel()` of its context apart. -/
def failuresLogged : List Event → Bool
  | [] => true
  | e :: t =>
    (if e.failed then
      match t with
      | Event.cancel :: l :: _ => l.isLog
      | l :: _ => l.isLog
      | [] => false
     else true) && failuresLogged t

/-- Number of `wg.Done()` calls a sub-task still has to perform. -/
def pendingDone (t : List Event × List Event) : Nat := t.2.count Event.done

/-- What holds in every state of a cycle of generator 2: one sub-task per
loop iteration so far, the loop runs at most 10 times and is over once the
generator waits, the WaitGroup counter is the number of outstanding
`wg.Done()` calls, it is zero during the cooldown, and every sub-task is
somewhere inside the body `lockTask j (o j)`. -/
structure Cycle.Inv (o : Nat → LockOracle) (c : Cycle) : Prop where
  len : c.tasks.length = c.i
  ile : c.i ≤ 10
  pcs : c.pc ≠ Pc.spawning → c.i = 10
  cool : c.pc = Pc.cooldown → c.wg = 0
  wg : c.wg = (c.tasks.map pendingDone).sum
  split : ∀ j t, c.tasks[j]? = some t → t.1 ++ t.2 = lockTask j (o j)

/-- The oracle under which every call of every sub-task succeeds. -/
def lockAllOk : Nat → LockOracle :=
  fun _ => { beginOk := true, selectOk := true, updateOk := true
             targetDraw := 0, sleepDraw := 0, amountDraw := 0 }

/-- A schedule that starts the ten sub-tasks, runs them one after the other
to their end, and then lets the generator pass `wg.Wait()`. -/
def sequentialSchedule : List Choice :=
  List.replicate 10 Choice.generator
  ++ (List.range 10).flatMap (fun j => List.replicate 9 (Choice.task j))
  ++ [Choice.generator, Choice.generator]

/-! ## The transaction as the driver sees it -/

/-- State of the transaction of a goroutine, as `database/sql` and the
`lib/pq` driver (main.go 15) track it. -/
inductive TxState
  /-- No transaction was begun -/
  | idle
  /-- Inside a transaction block -/
  | active
  /-- Inside a transaction block that a failed statement has aborted -/
  | failed
  /-- The transaction was committed or rolled back -/
  | finished
deriving DecidableEq, Repr

/-- Transaction control commands the driver sends to the server. -/
inductive Wire
  | begin | commit | rollback
deriving DecidableEq, Repr

/-- Effect of one action on the transaction and what the driver sends for it.
A statement that fails inside the transaction block leaves the block aborted.
`tx.Commit()` sends `COMMIT` in a healthy block; in an aborted block `lib/pq`
sends `ROLLBACK` instead (and returns an error, which the program ignores).
`tx.Rollback()` sends `ROLLBACK`.  Both do nothing on a transaction that is
already finished. -/
def txStep (s : TxState) : Event → TxState × List Wire
  | Event.begin true => (TxState.active, [Wire.begin])
  | Event.exec true _ false =>
    match s with
    | TxState.active => (TxState.failed, [])
    | s => (s, [])
  | Event.commit =>
    match s with
    | TxState.active => (TxState.finished, [Wire.commit])
    | TxState.failed => (TxState.finished, [Wire.rollback])
    | s => (s, [])
  | Event.rollback =>
    match s with
    | TxState.active => (TxState.finished, [Wire.rollback])
    | TxState.failed => (TxState.finished, [Wire.rollback])
    | s => (s, [])
  | _ => (s, [])

/-- The transaction state after a trace and the commands sent during it. -/
def txRun : TxState → List Event → TxState × List Wire
  | s, [] => (s, [])
  | s, e :: t =>
    ((txRun (txStep s e).1 t).1, (txStep s e).2 ++ (txRun (txStep s e).1 t).2)

/-- The first failed statement of a trace: the transaction state right after
it and the actions that follow it. -/
def afterFailureFrom : TxState → List Event → Option (TxState × List Event)
  | _, [] => none
  | s, e :: es =>
    if e.failed then some ((txStep s e).1, es) else afterFailureFrom (txStep s e).1 es

/-- Whether the actions send nothing to the database except the rollback of
the open transaction: every action is quiet, or is a `tx.Commit()` on a
transaction that is not in a healthy block (which sends `ROLLBACK` or
nothing). -/
def quietFrom : TxState → List Event → Bool
  | _, [] => true
  | s, e :: es =>
    (match e with
     | Event.commit => decide (s ≠ TxState.active)
     | e => e.quiet) && quietFrom (txStep s e).1 es

/-- Whether a trace abandons at its first failed statement: what follows
contains a log line and otherwise sends nothing to the database except the
rollback of the open transaction. -/
def abandons (t : List Event) : Bool :=
  match afterFailureFrom TxState.idle t with
  | none => true
  | some (s, rest) => rest.any Event.isLog && quietFrom s rest

/-- A trace that rolls back what fails: the transaction is not left open at
its end, and when a statement fails it fails inside the transaction block, what
follows sends exactly one `ROLLBACK` and finishes the transaction, and the
whole trace has sent `BEGIN` and `ROLLBACK` and no `COMMIT`. -/
def RollsBack (t : List Event) : Prop :=
  ((txRun TxState.idle t).1 = TxState.idle ∨ (txRun TxState.idle t).1 = TxState.finished) ∧
  (∀ s rest, afterFailureFrom TxState.idle t = some (s, rest) →
    s = TxState.failed ∧ txRun s rest = (TxState.finished, [Wire.rollback])) ∧
  (afterFailureFrom TxState.idle t ≠ none →
    (txRun TxState.idle t).2 = [Wire.begin, Wire.rollback])

/-! ## Generators that fan out sub-tasks under a `sync.WaitGroup` -/

/-- The shape of one cycle of a fan-out generator. -/
structure Fan where
  /-- Number of sub-tasks started with `go` -/
  k : Nat
  /-- Whether the counter is raised once by `wg.Add(k)` before the first
  `go` (main.go 409) rather than by `wg.Add(1)` before each (main.go 229, 335) -/
  upfront : Bool
  /-- The goroutine body of sub-task `j` -/
  body : Nat → List Event
  /-- The `time.Sleep` after `wg.Wait()`, in milliseconds -/
  cooldownMs : Nat

/-- Where a fan-out generator goroutine is inside one cycle. -/
inductive FanPc
  /-- At `var wg sync.WaitGroup` -/
  | start
  /-- Starting the sub-tasks -/
  | spawning
  /-- In `wg.Wait()` -/
  | waiting
  /-- In the `time.Sleep` that ends the cycle -/
  | cooldown
deriving DecidableEq, Repr

/-- State of one cycle of a fan-out generator with its sub-tasks. -/
structure FanState where
  pc : FanPc
  /-- Number of sub-tasks started so far -/
  i : Nat
  /-- The counter of the `sync.WaitGroup` -/
  wg : Nat
  /-- For each started sub-task: the actions it has performed and the ones it
  still has to perform -/
  tasks : List (List Event × List Event)
  /-- The cooldown sleep the generator has entered, in milliseconds -/
  slept : Option Nat
deriving DecidableEq, Repr

/-- The state at the top of the `for` body. -/
def FanState.init : FanState :=
  { pc := FanPc.start, i := 0, wg := 0, tasks := [], slept := none }

/-- One scheduling step of a fan-out generator; `none` when the chosen
goroutine cannot run (it is blocked in `wg.Wait()`, has returned, or does
not exist). -/
def Fan.step (F : Fan) (c : FanState) : Choice → Option FanState
  | Choice.generator =>
    match c.pc with
    | FanPc.start =>
      some { c with pc := FanPc.spawning, wg := if F.upfront then F.k else 0 }
    | FanPc.spawning =>
      if c.i < F.k then
        some { c with i := c.i + 1, wg := if F.upfront then c.wg else c.wg + 1
                      tasks := c.tasks ++ [([], F.body c.i)] }
      else some { c with pc := FanPc.waiting }
    | FanPc.waiting =>
      if c.wg = 0 then some { c with pc := FanPc.cooldown, slept := some F.cooldownMs }
      else none
    | FanPc.cooldown => none
  | Choice.task j =>
    match c.tasks[j]? with
    | some (performed, e :: rest) =>
      some { c with wg := wgAfter c.wg e
                    tasks := c.tasks.set j (performed ++ [e], rest) }
    | _ => none

/-- Run a schedule of a fan-out generator from a state. -/
def Fan.run (F : Fan) : List Choice → FanState → Option FanState
  | [], c => some c
  | ch :: rest, c =>
    match F.step c ch with
    | some c1 => Fan.run F rest c1
    | none => none

/-- A cycle of `lockContentionScenario` (main.go 224-268). -/
def lockFan (o : Nat → LockOracle) : Fan :=
  { k := 10, upfront := false, body := fun j => lockTask j (o j), cooldownMs := 15000 }

/-- A cycle of `connectionPoolExhaustion` (main.go 330-357): `ok j` and
`rows j` are the outcome and the number of rows of the query of sub-task `j`. -/
def poolFan (ok : Nat → Bool) (rows : Nat → Nat) : Fan :=
  { k := 60, upfront := false, body := fun j => poolTask j (ok j) (rows j)
    cooldownMs := 30000 }

/-- A cycle of `deadlockScenarios` (main.go 405-475). -/
def deadlockFan (o1 o2 : DeadOracle) : Fan :=
  { k := 2, upfront := true
    body := fun j => if j = 0 then deadlockTask1 o1 else deadlockTask2 o2
    cooldownMs := 30000 }

/-- What holds in every state of a cycle of a fan-out generator. -/
structure Fan.Inv (F : Fan) (c : FanState) : Prop where
  len : c.tasks.length = c.i
  ile : c.i ≤ F.k
  st : c.pc = FanPc.start → c.tasks = [] ∧ c.slept = none
  pcs : c.pc = FanPc.waiting ∨ c.pc = FanPc.cooldown → c.i = F.k
  cool : c.pc = FanPc.cooldown → c.wg = 0 ∧ c.slept = some F.cooldownMs
  wg : c.pc ≠ FanPc.start →
    c.wg = (c.tasks.map pendingDone).sum + (if F.upfront then F.k - c.i else 0)
  split : ∀ j t, c.tasks[j]? = some t → t.1 ++ t.2 = F.body j

/-- Every sub-task body of the generator calls `wg.Done()` once, as its last
action. -/
def Fan.Ends (F : Fan) : Prop :=
  ∀ j, (F.body j).count Event.done = 1 ∧ (F.body j).getLast? = some Event.done

/-- A schedule of `deadlockFan`: both sub-tasks are started, the first runs
its 5 actions, the second its 9, and the generator passes `wg.Wait()`. -/
def deadlockSchedule : List Choice :=
  [Choice.generator, Choice.generator, Choice.generator]
  ++ List.replicate 5 (Choice.task 0)
  ++ List.replicate 9 (Choice.task 1)
  ++ [Choice.generator, Choice.generator]

/-! ## Lemmas on decimal rendering -/

theorem digitChar_toNat (k : Nat) (h : k < 10) : (Nat.digitChar k).toNat - 48 = k := by
  interval_cases k <;> decide

theorem decodeFrom_toDigitsCore (fuel : Nat) :
    ∀ (n : Nat) (ds : List Char), n < fuel →
      decodeFrom 0 (Nat.toDigitsCore 10 fuel n ds) = decodeFrom n ds := by
  induction fuel with
  | zero => intro n ds h; omega
  | succ f ih =>
    intro n ds h
    simp only [Nat.toDigitsCore]
    have hd : (Nat.digitChar (n % 10)).toNat - 48 = n % 10 :=
      digitChar_toNat _ (Nat.mod_lt _ (by decide))
    split
    · rename_i h0
      have : n % 10 = n := by omega
      simp only [decodeFrom, List.foldl_cons, Nat.zero_mul, Nat.zero_add, hd]
      rw [this]
    · rename_i h0
      rw [ih (n / 10) _ (by omega)]
      have : n / 10 * 10 + n % 10 = n := by omega
      simp only [decodeFrom, List.foldl_cons, hd]
      rw [this]

theorem decodeFrom_repr (n : Nat) : decodeFrom 0 (Nat.repr n).data = n := by
  have h := decodeFrom_toDigitsCore (n + 1) n [] (Nat.lt_succ_self n)
  simpa [Nat.repr, Nat.toDigits, List.asString, decodeFrom] using h

theorem fmtD_injective : Function.Injective fmtD := by
  intro a b h
  have := congrArg (fun s => decodeFrom 0 s.data) h
  simpa [fmtD, decodeFrom_repr] using this

theorem userName_injective : Function.Injective fun k : Nat => "user" ++ fmtD (k + 1) := by
  intro a b h
  have h1 : ("user" ++ fmtD (a + 1)).data = ("user" ++ fmtD (b + 1)).data := congrArg _ h
  rw [String.data_append, String.data_append] at h1
  have h2 := List.append_cancel_left h1
  have h3 : fmtD (a + 1) = fmtD (b + 1) := String.ext h2
  have := fmtD_injective h3
  omega

theorem userNames_nodup (n : Nat) : (userNames n).Nodup :=
  (List.nodup_range n).map userName_injective

/-! ## Lemmas on the bootstrap loops -/

theorem stmts_append (a b : List Event) : stmts (a ++ b) = stmts a ++ stmts b := by
  simp [stmts, List.filterMap_append]

theorem stmts_seedUsers (o : BootOracle) (n : Nat) :
    ∀ i, stmts (seedUsers o n i) = (List.range n).map fun k => userInsert o (i + k) := by
  induction n with
  | zero => intro i; simp [seedUsers, stmts]
  | succ n ih =>
    intro i
    rw [seedUsers, stmts_append, ih (i + 1), List.range_succ_eq_map]
    have hk : ∀ k, i + 1 + k = i + (k + 1) := fun k => by omega
    cases o.userOk i <;> simp [stmts, Event.stmt, hk, Function.comp_def]

theorem stmts_seedLarge (o : BootOracle) (n : Nat) :
    ∀ i, stmts (seedLarge o n i) = (List.range n).map fun k => largeInsert o (i + k) := by
  induction n with
  | zero => intro i; simp [seedLarge, stmts]
  | succ n ih =>
    intro i
    rw [seedLarge, stmts_append, ih (i + 1), List.range_succ_eq_map]
    have hk : ∀ k, i + 1 + k = i + (k + 1) := fun k => by omega
    cases o.largeOk i <;> simp [stmts, Event.stmt, hk, Function.comp_def]

theorem run_append (db : DB) (a b : List Event) :
    DB.run db (a ++ b) = DB.run (DB.run db a) b := by
  simp [DB.run, List.foldl_append]

theorem run_createTables (o : BootOracle) (ts : List Table) :
    ∀ db : DB, (DB.run db (createTables o ts).1).users = db.users ∧
      (DB.run db (createTables o ts).1).largeRows = db.largeRows := by
  induction ts with
  | nil => intro db; simp [createTables, DB.run]
  | cons t ts ih =>
    intro db
    unfold createTables
    cases ht : o.createOk t
    · simp [DB.run, DB.applyEvent]
    · have h := ih (DB.applyStmt db (Stmt.createTable t))
      have hu : (DB.applyStmt db (Stmt.createTable t)).users = db.users := by
        simp only [DB.applyStmt]; split <;> rfl
      have hl : (DB.applyStmt db (Stmt.createTable t)).largeRows = db.largeRows := by
        simp only [DB.applyStmt]; split <;> rfl
      simpa [DB.run, DB.applyEvent, hu, hl] using h

theorem userName_not_mem (m : Nat) : "user" ++ fmtD (m + 1) ∉ userNames m := by
  intro h
  simp only [userNames, List.mem_map, List.mem_range] at h
  obtain ⟨k, hk, he⟩ := h
  have := userName_injective he
  omega

theorem userNames_succ (m : Nat) :
    userNames (m + 1) = userNames m ++ ["user" ++ fmtD (m + 1)] := by
  simp [userNames, List.range_succ]

/-- Seeding a `users` table that holds `user1..user<m>`, every insert
succeeding, from index `m + 1` on. -/
theorem run_seedUsers_fresh (o : BootOracle) (hok : ∀ k, o.userOk k = true) (n : Nat) :
    ∀ (m : Nat) (db : DB), db.users.map Prod.fst = userNames m →
      (DB.run db (seedUsers o n (m + 1))).users.map Prod.fst = userNames (m + n) ∧
      (DB.run db (seedUsers o n (m + 1))).largeRows = db.largeRows := by
  induction n with
  | zero => intro m db h; simpa [seedUsers, DB.run] using h
  | succ n ih =>
    intro m db h
    rw [seedUsers, run_append]
    have hnot : "user" ++ fmtD (m + 1) ∉ List.map Prod.fst db.users := by
      rw [h]; exact userName_not_mem m
    have h1 : DB.run db (if o.userOk (m + 1) = true
          then [Event.exec false (userInsert o (m + 1)) true]
          else [Event.exec false (userInsert o (m + 1)) false,
                Event.log "Error inserting user %d: %v" [m + 1]])
        = { db with users := db.users ++
              [("user" ++ fmtD (m + 1), "user" ++ fmtD (m + 1) ++ "@example.com")] } := by
      simp [hok, DB.run, DB.applyEvent, DB.applyStmt, userInsert, hnot]
    rw [h1]
    have h2 := ih (m + 1) { db with users := db.users ++
        [("user" ++ fmtD (m + 1), "user" ++ fmtD (m + 1) ++ "@example.com")] }
      (by simp [h, userNames_succ])
    have e : m + 1 + n = m + (n + 1) := by omega
    rw [e] at h2
    exact h2

/-- Seeding a `users` table that already holds every name to insert changes
nothing, whatever the outcomes. -/
theorem run_seedUsers_present (o : BootOracle) (n : Nat) :
    ∀ (i : Nat) (db : DB),
      (∀ k, k < n → "user" ++ fmtD (i + k) ∈ db.users.map Prod.fst) →
      DB.run db (seedUsers o n i) = db := by
  induction n with
  | zero => intro i db _; simp [seedUsers, DB.run]
  | succ n ih =>
    intro i db h
    rw [seedUsers, run_append]
    have hin : "user" ++ fmtD i ∈ List.map Prod.fst db.users := by
      simpa using h 0 (Nat.succ_pos n)
    have h1 : DB.run db (if o.userOk i = true
          then [Event.exec false (userInsert o i) true]
          else [Event.exec false (userInsert o i) false,
                Event.log "Error inserting user %d: %v" [i]]) = db := by
      cases o.userOk i <;> simp [DB.run, DB.applyEvent, DB.applyStmt, userInsert, hin]
    rw [h1]
    refine ih (i + 1) db ?_
    intro k hk
    have := h (k + 1) (by omega)
    have e : i + 1 + k = i + (k + 1) := by omega
    rw [e]; exact this

/-- Every successful insert into `large_table` adds a row. -/
theorem run_seedLarge (o : BootOracle) (hok : ∀ k, o.largeOk k = true) (n : Nat) :
    ∀ (i : Nat) (db : DB),
      (DB.run db (seedLarge o n i)).largeRows.length = db.largeRows.length + n ∧
      (DB.run db (seedLarge o n i)).users = db.users := by
  induction n with
  | zero => intro i db; simp [seedLarge, DB.run]
  | succ n ih =>
    intro i db
    rw [seedLarge, run_append]
    have h1 : DB.run db (if o.largeOk i = true
          then [Event.exec false (largeInsert o i) true]
          else [Event.exec false (largeInsert o i) false,
                Event.log "Error inserting large_table %d: %v" [i]])
        = { db with largeRows := db.largeRows ++
              [("Large data entry " ++ fmtD i ++ " with lots of text to make it bigger",
                Intn 1000 (o.numberDraw i))] } := by
      simp [hok, DB.run, DB.applyEvent, DB.applyStmt, largeInsert]
    rw [h1]
    have h2 := ih (i + 1) { db with largeRows := db.largeRows ++
        [("Large data entry " ++ fmtD i ++ " with lots of text to make it bigger",
          Intn 1000 (o.numberDraw i))] }
    simp only [List.length_append, List.length_singleton] at h2
    constructor
    · rw [h2.1]; omega
    · rw [h2.2]

/-- The loop over the `CREATE TABLE` statements either stops at the first one
that fails, all before it having succeeded, or runs through with every one
succeeding. -/
theorem createTables_spec (o : BootOracle) (ts : List Table) :
    (∃ pre t post, ts = pre ++ t :: post ∧ (∀ u ∈ pre, o.createOk u = true) ∧
        o.createOk t = false ∧
        createTables o ts =
          (pre.map (fun u => Event.exec false (Stmt.createTable u) true)
            ++ [Event.exec false (Stmt.createTable t) false], some t)) ∨
    ((∀ u ∈ ts, o.createOk u = true) ∧
        createTables o ts =
          (ts.map (fun u => Event.exec false (Stmt.createTable u) true), none)) := by
  induction ts with
  | nil => right; simp [createTables]
  | cons t ts ih =>
    cases ht : o.createOk t
    · left
      exact ⟨[], t, ts, rfl, by simp, ht, by simp [createTables, ht]⟩
    · rcases ih with ⟨pre, u, post, hts, hpre, hu, hc⟩ | ⟨hall, hc⟩
      · left
        refine ⟨t :: pre, u, post, by simp [hts], ?_, hu, by simp [createTables, ht, hc]⟩
        intro v hv
        rcases List.mem_cons.1 hv with rfl | hv
        · exact ht
        · exact hpre v hv
      · right
        refine ⟨?_, by simp [createTables, ht, hc]⟩
        intro v hv
        rcases List.mem_cons.1 hv with rfl | hv
        · exact ht
        · exact hall v hv

theorem stmts_creates (ts : List Table) (b : Bool) :
    stmts (ts.map fun u => Event.exec false (Stmt.createTable u) b)
      = ts.map Stmt.createTable := by
  induction ts with
  | nil => rfl
  | cons t ts ih =>
    simp only [stmts, List.map_cons, List.filterMap_cons, Event.stmt] at ih ⊢
    rw [ih]

/-- The trace of a bootstrap whose four `CREATE TABLE` succeed. -/
theorem initializeData_of_creates (o : BootOracle) (h : ∀ u ∈ queries, o.createOk u = true) :
    (initializeData o).err = none ∧
    (initializeData o).trace =
      Event.log "Initializing database tables and data..." []
        :: (createTables o queries).1
        ++ [Event.log "Inserting initial data..." []]
        ++ seedUsers o 1000 1
        ++ seedLarge o 10000 1
        ++ [Event.log "Database initialization complete!" []] := by
  rcases createTables_spec o queries with ⟨pre, t, post, hts, _, ht, _⟩ | ⟨_, hc⟩
  · have := h t (by rw [hts]; simp)
    rw [ht] at this; cases this
  · simp only [initializeData, hc]
    exact ⟨trivial, trivial⟩

/-- The database after a bootstrap in which every statement succeeds, for a
`users` table that is empty (`m = 0`) or already seeded (`m = 1000`). -/
theorem run_initializeData (o : BootOracle) (hc : ∀ u ∈ queries, o.createOk u = true)
    (hu : ∀ k, o.userOk k = true) (hl : ∀ k, o.largeOk k = true) (db : DB) (m : Nat)
    (hm : m = 0 ∨ m = 1000) (hdb : db.users.map Prod.fst = userNames m) :
    (DB.run db (initializeData o).trace).users.map Prod.fst = userNames 1000 ∧
    (DB.run db (initializeData o).trace).largeRows.length = db.largeRows.length + 10000 := by
  rw [(initializeData_of_creates o hc).2]
  rw [run_append, run_append, run_append, run_append]
  have hlog : ∀ (d : DB) (f : String) (a : List Nat), DB.run d [Event.log f a] = d := by
    intro d f a; rfl
  have hcons : ∀ (d : DB) (f : String) (a : List Nat) (t : List Event),
      DB.run d (Event.log f a :: t) = DB.run d t := by
    intro d f a t; rfl
  rw [hlog, hlog, hcons]
  have h1 := run_createTables o queries db
  generalize DB.run db (createTables o queries).1 = db1 at h1 ⊢
  have hdb1 : db1.users.map Prod.fst = userNames m := by rw [h1.1]; exact hdb
  have h3 := fun d => run_seedLarge o hl 10000 1 d
  rcases hm with rfl | rfl
  · have h2 := run_seedUsers_fresh o hu 1000 0 db1 hdb1
    simp only [Nat.zero_add] at h2
    have h4 := h3 (DB.run db1 (seedUsers o 1000 1))
    rw [h4.2, h4.1, h2.1, h2.2, h1.2]
    exact ⟨rfl, rfl⟩
  · have h2 : DB.run db1 (seedUsers o 1000 1) = db1 := by
      apply run_seedUsers_present
      intro k hk
      rw [hdb1]
      simp only [userNames, List.mem_map, List.mem_range]
      exact ⟨k, hk, by rw [Nat.add_comm]⟩
    have h4 := h3 db1
    rw [h2, h4.2, h4.1, hdb1, h1.2]
    exact ⟨rfl, rfl⟩

theorem allOk_ok : (∀ u ∈ queries, allOk.createOk u = true) ∧
    (∀ k, allOk.userOk k = true) ∧ (∀ k, allOk.largeOk k = true) :=
  ⟨fun _ _ => rfl, fun _ => rfl, fun _ => rfl⟩

/-- C3: On the empty database, a bootstrap in which every statement succeeds
returns no error and leaves exactly the usernames `user1..user1000` and
10000 rows in `large_table`.  A second such bootstrap on that state returns
no error and leaves the usernames unchanged, and `large_table` then holds
20000 rows: the seed of `large_table` is inserted again. -/
theorem initializeData_twice_large_rows :
    (initializeData allOk).err = none ∧
    (DB.run DB.empty (initializeData allOk).trace).users.map Prod.fst = userNames 1000 ∧
    (DB.run DB.empty (initializeData allOk).trace).largeRows.length = 10000 ∧
    (DB.run (DB.run DB.empty (initializeData allOk).trace)
        (initializeData allOk).trace).users.map Prod.fst = userNames 1000 ∧
    (DB.run (DB.run DB.empty (initializeData allOk).trace)
        (initializeData allOk).trace).largeRows.length = 20000 := by
  have h1 := run_initializeData allOk allOk_ok.1 allOk_ok.2.1 allOk_ok.2.2 DB.empty 0
    (Or.inl rfl) rfl
  have h2 := run_initializeData allOk allOk_ok.1 allOk_ok.2.1 allOk_ok.2.2
    (DB.run DB.empty (initializeData allOk).trace) 1000 (Or.inr rfl) h1.1
  refine ⟨(initializeData_of_creates allOk allOk_ok.1).1, h1.1, ?_, h2.1, ?_⟩
  · rw [h1.2]; rfl
  · rw [h2.2, h1.2]; rfl

/-- C9: `getEnv` and `getEnvInt` return the default when the variable is
unset or empty; for a non-empty value `getEnv` returns the value and
`getEnvInt` returns the default when `strconv.Atoi` reports an error and the
parsed integer otherwise; with an empty environment `main` uses the fixed
defaults. -/
theorem config_fallback (atoi : String → Option Int) (env : Env) (key ds : String) (d : Int) :
    ((env key = none ∨ env key = some "") →
      getEnv env key ds = ds ∧ getEnvInt atoi env key d = d) ∧
    (∀ v, env key = some v → v ≠ "" →
      getEnv env key ds = v ∧
      (atoi v = none → getEnvInt atoi env key d = d) ∧
      (∀ n, atoi v = some n → getEnvInt atoi env key d = n)) ∧
    mainConfig atoi emptyEnv =
      { dbHost := "postgres", dbPort := 5432, dbUser := "postgres"
        dbPassword := "mysecretpassword", dbName := "postgres" } := by
  refine ⟨?_, ?_, ?_⟩
  · rintro (h | h) <;> simp [getEnv, getEnvInt, Getenv, h]
  · intro v hv hne
    refine ⟨by simp [getEnv, Getenv, hv, hne], ?_, ?_⟩
    · intro ha; simp [getEnvInt, Getenv, hv, hne, ha]
    · intro n ha; simp [getEnvInt, Getenv, hv, hne, ha]
  · simp [mainConfig, getEnv, getEnvInt, Getenv, emptyEnv]

/-- An environment that sets only `DB_PORT`. -/
theorem config_fallback_witness :
    getEnvInt strconvAtoi (fun k => if k = "DB_PORT" then some "6543" else none)
        "DB_PORT" 5432 = 6543 ∧
    getEnvInt strconvAtoi (fun k => if k = "DB_PORT" then some "65x3" else none)
        "DB_PORT" 5432 = 5432 ∧
    getEnv (fun k => if k = "DB_PORT" then some "6543" else none) "DB_HOST" "postgres"
        = "postgres" :=
  ⟨((config_fallback strconvAtoi (fun k => if k = "DB_PORT" then some "6543" else none)
      "DB_PORT" "" 5432).2.1 "6543" (by decide) (by decide)).2.2 6543 (by decide),
   ((config_fallback strconvAtoi (fun k => if k = "DB_PORT" then some "65x3" else none)
      "DB_PORT" "" 5432).2.1 "65x3" (by decide) (by decide)).2.1 (by decide),
   ((config_fallback strconvAtoi (fun k => if k = "DB_PORT" then some "6543" else none)
      "DB_HOST" "postgres" 5432).1 (Or.inl (by decide))).1⟩

/-! ## Lemmas on the generator loops -/

theorem stmts_heavyInserts (o : HeavyOracle) (n : Nat) :
    ∀ i, stmts (heavyInserts o n i) = (List.range n).map fun k => auditInsert o (i + k) := by
  induction n with
  | zero => intro i; simp [heavyInserts, stmts]
  | succ n ih =>
    intro i
    rw [heavyInserts, stmts_append, ih (i + 1), List.range_succ_eq_map]
    have hk : ∀ k, i + 1 + k = i + (k + 1) := fun k => by omega
    cases o.insertOk i <;> simp [stmts, Event.stmt, hk, Function.comp_def]

theorem stmts_heavyUpdates (o : HeavyOracle) (n : Nat) :
    ∀ i, stmts (heavyUpdates o n i) = (List.range n).map fun k => balanceUpdate o (i + k) := by
  induction n with
  | zero => intro i; simp [heavyUpdates, stmts]
  | succ n ih =>
    intro i
    rw [heavyUpdates, stmts_append, ih (i + 1), List.range_succ_eq_map]
    have hk : ∀ k, i + 1 + k = i + (k + 1) := fun k => by omega
    cases o.updateOk i <;> simp [stmts, Event.stmt, hk, Function.comp_def]

theorem stmts_heavyWriteCycle (o : HeavyOracle) :
    stmts (heavyWriteCycle o) =
      ((List.range 1000).map fun k => auditInsert o (0 + k))
      ++ ((List.range 500).map fun k => balanceUpdate o (0 + k))
      ++ [Stmt.deleteOldAudit] := by
  unfold heavyWriteCycle
  rw [stmts_append, stmts_append, stmts_append, stmts_heavyInserts, stmts_heavyUpdates]
  cases o.deleteOk <;> simp [stmts, Event.stmt]

theorem mem_stmts_longUpdates (o : LongOracle) (n : Nat) :
    ∀ i s, s ∈ stmts (longUpdates o n i) →
      ∃ k, s = Stmt.touchUser (Intn 100 (o.updateDraw k) + 1) := by
  induction n with
  | zero => intro i s h; simp [longUpdates, stmts] at h
  | succ n ih =>
    intro i s h
    unfold longUpdates at h
    cases hu : o.updateOk i
    · simp [hu, stmts, Event.stmt] at h
      exact ⟨i, h⟩
    · simp only [hu, if_true, stmts, List.filterMap_cons, Event.stmt, List.mem_cons] at h
      rcases h with h | h
      · exact ⟨i, h⟩
      · exact ih (i + 1) s h

theorem stmts_ineffRows (rows : List Bool) : ∀ c, stmts (ineffRows rows c).1 = [] := by
  induction rows with
  | nil => intro c; rfl
  | cons b rows ih =>
    intro c
    cases b
    · simpa [ineffRows, stmts, Event.stmt] using ih c
    · simpa [ineffRows, stmts, Event.stmt] using ih (c + 1)

theorem stmts_slowRows (rows : List Bool) : ∀ c, stmts (slowRows rows c).1 = [] := by
  induction rows with
  | nil => intro c; rfl
  | cons b rows ih =>
    intro c
    cases b
    · simpa [slowRows, stmts, Event.stmt] using ih c
    · simpa [slowRows, stmts, Event.stmt] using ih (c + 1)

theorem stmts_replicate_next (n : Nat) : stmts (List.replicate n (Event.next true)) = [] := by
  induction n with
  | zero => rfl
  | succ n ih => simp [List.replicate_succ, stmts, Event.stmt]

theorem Intn_lt (n raw : Nat) (h : 0 < n) : Intn n raw < n := Nat.mod_lt raw h

theorem stmts_lockTask (g : Nat) (o : LockOracle) :
    stmts (lockTask g o) =
      if o.beginOk then
        if o.selectOk then
          [Stmt.selectForUpdate (targetID o), Stmt.addBalance o.amountDraw (targetID o)]
        else [Stmt.selectForUpdate (targetID o)]
      else [] := by
  rcases o with ⟨b, f, t, _, _, _⟩
  cases b <;> cases f <;> cases t <;> simp [lockTask, stmts, Event.stmt]

theorem stmts_deadlockTask1 (d : DeadOracle) :
    stmts (deadlockTask1 d) =
      if d.beginOk then
        if d.firstOk then [Stmt.addTen 1, Stmt.addTen 2] else [Stmt.addTen 1]
      else [] := by
  rcases d with ⟨b, f, t⟩
  cases b <;> cases f <;> cases t <;> simp [deadlockTask1, stmts, Event.stmt]

theorem stmts_deadlockTask2 (d : DeadOracle) :
    stmts (deadlockTask2 d) =
      if d.beginOk then
        if d.firstOk then [Stmt.addTen 2, Stmt.addTen 1] else [Stmt.addTen 2]
      else [] := by
  rcases d with ⟨b, f, t⟩
  cases b <;> cases f <;> cases t <;> simp [deadlockTask2, stmts, Event.stmt]

theorem stmts_query (d : Option Nat) (s : Stmt) (ok : Bool) (t : List Event) :
    stmts (Event.query d s ok :: t) = s :: stmts t := rfl

theorem stmts_exec (b : Bool) (s : Stmt) (ok : Bool) (t : List Event) :
    stmts (Event.exec b s ok :: t) = s :: stmts t := rfl

theorem stmts_inefficientCycle (o : IneffOracle) :
    stmts (inefficientCycle o) = [Stmt.joinOrders, Stmt.scanLarge] := by
  unfold inefficientCycle
  rw [stmts_append, stmts_append]
  cases o.firstOk <;> cases o.secondOk <;>
    simp only [if_true, if_false, Bool.false_eq_true, stmts_query, stmts_append,
      stmts_ineffRows] <;> rfl

theorem stmts_poolTask (c : Nat) (ok : Bool) (r : Nat) :
    stmts (poolTask c ok r) = [Stmt.sleepUsers] := by
  unfold poolTask
  cases ok
  · rfl
  · simp only [if_true, stmts_query, stmts_append, stmts_replicate_next]
    rfl

theorem stmts_slowScanCycle (o : SlowOracle) :
    stmts (slowScanCycle o) = [Stmt.aggregateLarge] := by
  unfold slowScanCycle
  rw [stmts_append, stmts_append]
  cases o.queryOk <;>
    simp only [if_true, if_false, Bool.false_eq_true, stmts_append, stmts_slowRows] <;> rfl

theorem mem_stmts_longRunningCycle (o : LongOracle) (s : Stmt)
    (h : s ∈ stmts (longRunningCycle o)) :
    s = Stmt.selectForUpdate (Intn 100 o.selectDraw + 1) ∨
    ∃ k, s = Stmt.touchUser (Intn 100 (o.updateDraw k) + 1) := by
  unfold longRunningCycle at h
  cases hb : o.beginOk
  · rw [hb] at h
    simp [stmts, Event.stmt] at h
  · cases hsel : o.selectOk
    · rw [hb, hsel] at h
      left
      simpa [stmts, Event.stmt] using h
    · rw [hb, hsel] at h
      simp only [if_true, stmts_append, List.mem_append] at h
      rcases h with (h | h) | h
      · left
        simpa [stmts, Event.stmt] using h
      · right
        exact mem_stmts_longUpdates o 10 0 s h
      · simp [stmts, Event.stmt] at h

/-- C10: every `users` row id a generator addresses lies in the seeded range:
1..100 for `longRunningTransactions`, 1..10 for a `lockContentionScenario`
sub-task, 1..1000 for `heavyWriteOperations`, 1 or 2 for the
`deadlockScenarios` sub-tasks (and both ids when the updates succeed), and
the other three generators address no row by id; the bootstrap inserts the
usernames `user1`, ..., `user1000`, which are 1000 distinct names. -/
theorem targets_in_seeded_range (lo : LongOracle) (g : Nat) (ko : LockOracle)
    (ho : HeavyOracle) (d : DeadOracle) (io : IneffOracle) (c r : Nat) (ok : Bool)
    (so : SlowOracle) (bo : BootOracle) :
    (∀ s ∈ stmts (longRunningCycle lo), ∀ id, s.userId = some id → 1 ≤ id ∧ id ≤ 100) ∧
    (∀ s ∈ stmts (lockTask g ko), ∀ id, s.userId = some id → 1 ≤ id ∧ id ≤ 10) ∧
    (∀ s ∈ stmts (heavyWriteCycle ho), ∀ id, s.userId = some id → 1 ≤ id ∧ id ≤ 1000) ∧
    (∀ s ∈ stmts (deadlockTask1 d) ++ stmts (deadlockTask2 d),
      ∀ id, s.userId = some id → id = 1 ∨ id = 2) ∧
    (stmts (deadlockTask1 { beginOk := true, firstOk := true, secondOk := true })).map
        Stmt.userId = [some 1, some 2] ∧
    (stmts (deadlockTask2 { beginOk := true, firstOk := true, secondOk := true })).map
        Stmt.userId = [some 2, some 1] ∧
    (∀ s ∈ stmts (inefficientCycle io) ++ stmts (poolTask c ok r) ++ stmts (slowScanCycle so),
      s.userId = none) ∧
    (stmts (seedUsers bo 1000 1)).map Stmt.username = (userNames 1000).map some ∧
    (userNames 1000).Nodup ∧ (userNames 1000).length = 1000 := by
  refine ⟨?_, ?_, ?_, ?_, by decide, by decide, ?_, ?_, userNames_nodup 1000, by simp [userNames]⟩
  · intro s hs id hid
    have h100 := fun raw => Intn_lt 100 raw (by decide)
    rcases mem_stmts_longRunningCycle lo s hs with rfl | ⟨k, rfl⟩
    · simp only [Stmt.userId, Option.some.injEq] at hid
      have := h100 lo.selectDraw
      omega
    · simp only [Stmt.userId, Option.some.injEq] at hid
      have := h100 (lo.updateDraw k)
      omega
  · intro s hs id hid
    have h10 := Intn_lt 10 ko.targetDraw (by decide)
    have key : ∀ s ∈ stmts (lockTask g ko), s = Stmt.selectForUpdate (targetID ko) ∨
        s = Stmt.addBalance ko.amountDraw (targetID ko) := by
      rw [stmts_lockTask]; split_ifs <;> simp
    rcases key s hs with rfl | rfl <;>
      simp only [Stmt.userId, Option.some.injEq, targetID] at hid <;> omega
  · intro s hs id hid
    rw [stmts_heavyWriteCycle] at hs
    simp only [List.mem_append, List.mem_map, List.mem_range, List.mem_singleton] at hs
    rcases hs with (⟨k, _, rfl⟩ | ⟨k, _, rfl⟩) | rfl
    · simp only [auditInsert, Stmt.userId, Option.some.injEq] at hid
      have := Intn_lt 1000 (ho.recordDraw (0 + k)) (by decide)
      omega
    · simp only [balanceUpdate, Stmt.userId, Option.some.injEq] at hid
      have := Intn_lt 1000 (ho.idDraw (0 + k)) (by decide)
      omega
    · simp [Stmt.userId] at hid
  · intro s hs id hid
    have key : ∀ s ∈ stmts (deadlockTask1 d) ++ stmts (deadlockTask2 d),
        s = Stmt.addTen 1 ∨ s = Stmt.addTen 2 := by
      rw [stmts_deadlockTask1, stmts_deadlockTask2]; split_ifs <;> simp
    rcases key s hs with rfl | rfl <;>
      simp only [Stmt.userId, Option.some.injEq] at hid <;> omega
  · intro s hs
    rw [stmts_inefficientCycle, stmts_poolTask, stmts_slowScanCycle] at hs
    simp only [List.mem_append, List.mem_cons, List.mem_singleton, List.not_mem_nil,
      or_false] at hs
    rcases hs with ((rfl | rfl) | rfl) | rfl <;> rfl
  · rw [stmts_seedUsers]
    simp [userNames, userInsert, Stmt.username, Function.comp_def, Nat.add_comm]

/-! ## Lemmas on traces -/

theorem held_append (a b : List Event) (h : Held) :
    (a ++ b).foldl Held.after h = b.foldl Held.after (a.foldl Held.after h) :=
  List.foldl_append _ _ _ _

theorem held_plain (e : Event) (he : e.plain = true) (h : Held) : Held.after h e = h := by
  cases e <;> first | rfl | (simp [Event.plain] at he)

theorem held_all_plain (t : List Event) (ht : ∀ e ∈ t, e.plain = true) (h : Held) :
    t.foldl Held.after h = h := by
  induction t generalizing h with
  | nil => rfl
  | cons e t ih =>
    rw [List.foldl_cons, held_plain e (ht e (List.mem_cons_self e t))]
    exact ih (fun x hx => ht x (List.mem_cons_of_mem e hx)) h

theorem deadline_plain (e : Event) (he : e.plain = true) : e.deadline = none := by
  cases e <;> first | rfl | (simp [Event.plain] at he)

theorem plain_longUpdates (o : LongOracle) (n : Nat) :
    ∀ i, ∀ e ∈ longUpdates o n i, e.plain = true := by
  induction n with
  | zero => intro i e h; simp [longUpdates] at h
  | succ n ih =>
    intro i e h
    unfold longUpdates at h
    cases hu : o.updateOk i
    · simp only [hu, Bool.false_eq_true, if_false, List.mem_cons, List.mem_singleton,
        List.not_mem_nil, or_false] at h
      rcases h with rfl | rfl <;> rfl
    · simp only [hu, if_true, List.mem_cons] at h
      rcases h with rfl | rfl | h
      · rfl
      · rfl
      · exact ih (i + 1) e h

theorem plain_heavyInserts (o : HeavyOracle) (n : Nat) :
    ∀ i, ∀ e ∈ heavyInserts o n i, e.plain = true := by
  induction n with
  | zero => intro i e h; simp [heavyInserts] at h
  | succ n ih =>
    intro i e h
    unfold heavyInserts at h
    rcases List.mem_append.1 h with h | h
    · cases hu : o.insertOk i <;>
        simp only [hu, Bool.false_eq_true, if_false, if_true, List.mem_cons,
          List.mem_singleton, List.not_mem_nil, or_false] at h
      · rcases h with rfl | rfl <;> rfl
      · subst h; rfl
    · exact ih (i + 1) e h

theorem plain_heavyUpdates (o : HeavyOracle) (n : Nat) :
    ∀ i, ∀ e ∈ heavyUpdates o n i, e.plain = true := by
  induction n with
  | zero => intro i e h; simp [heavyUpdates] at h
  | succ n ih =>
    intro i e h
    unfold heavyUpdates at h
    rcases List.mem_append.1 h with h | h
    · cases hu : o.updateOk i <;>
        simp only [hu, Bool.false_eq_true, if_false, if_true, List.mem_cons,
          List.mem_singleton, List.not_mem_nil, or_false] at h
      · rcases h with rfl | rfl <;> rfl
      · subst h; rfl
    · exact ih (i + 1) e h

theorem plain_ineffRows (rows : List Bool) :
    ∀ c, ∀ e ∈ (ineffRows rows c).1, e.plain = true := by
  induction rows with
  | nil => intro c e h; simp [ineffRows] at h; subst h; rfl
  | cons b rows ih =>
    intro c e h
    cases b
    · simp only [ineffRows, List.mem_cons] at h
      rcases h with rfl | rfl | rfl | h
      · rfl
      · rfl
      · rfl
      · exact ih c e h
    · simp only [ineffRows, List.mem_cons] at h
      rcases h with rfl | rfl | rfl | h
      · rfl
      · rfl
      · rfl
      · exact ih (c + 1) e h

theorem plain_slowRows (rows : List Bool) :
    ∀ c, ∀ e ∈ (slowRows rows c).1, e.plain = true := by
  induction rows with
  | nil => intro c e h; simp [slowRows] at h; subst h; rfl
  | cons b rows ih =>
    intro c e h
    cases b
    · simp only [slowRows, List.mem_cons] at h
      rcases h with rfl | rfl | rfl | h
      · rfl
      · rfl
      · rfl
      · exact ih c e h
    · simp only [slowRows, List.mem_cons] at h
      rcases h with rfl | rfl | h
      · rfl
      · rfl
      · exact ih (c + 1) e h

theorem plain_replicate_next (n : Nat) :
    ∀ e ∈ List.replicate n (Event.next true), e.plain = true := by
  intro e h
  rw [List.eq_of_mem_replicate h]
  rfl

theorem plain_heavyWriteCycle (o : HeavyOracle) : ∀ e ∈ heavyWriteCycle o, e.plain = true := by
  intro e h
  unfold heavyWriteCycle at h
  simp only [List.mem_append] at h
  rcases h with ((h | h) | h) | h
  · exact plain_heavyInserts o 1000 0 e h
  · exact plain_heavyUpdates o 500 0 e h
  · cases hd : o.deleteOk <;>
      simp only [hd, Bool.false_eq_true, if_false, if_true, List.mem_cons,
        List.mem_singleton, List.not_mem_nil, or_false] at h
    · rcases h with rfl | rfl <;> rfl
    · subst h; rfl
  · simp only [List.mem_cons, List.mem_singleton, List.not_mem_nil, or_false] at h
    rcases h with rfl | rfl <;> rfl

theorem held_longRunningCycle (o : LongOracle) : held (longRunningCycle o) = ⟨0, 0⟩ := by
  unfold longRunningCycle
  cases o.beginOk
  · rfl
  · cases o.selectOk
    · rfl
    · simp only [if_true, held, held_append]
      rw [held_all_plain _ (plain_longUpdates o 10 0)]
      rfl

theorem held_inefficientCycle (o : IneffOracle) :
    held (inefficientCycle o) = ⟨0, if o.secondOk then 1 else 0⟩ := by
  unfold inefficientCycle
  have hrows : ∀ h : Held, (ineffRows o.rows 0).1.foldl Held.after h = h :=
    held_all_plain _ (plain_ineffRows o.rows 0)
  cases o.firstOk <;> cases o.secondOk <;>
    simp only [if_true, if_false, Bool.false_eq_true, held, held_append, List.foldl_cons,
      hrows] <;> rfl

theorem held_poolTask (c : Nat) (ok : Bool) (r : Nat) : held (poolTask c ok r) = ⟨0, 0⟩ := by
  unfold poolTask
  cases ok
  · rfl
  · simp only [if_true, held, held_append, List.foldl_cons]
    rw [held_all_plain _ (plain_replicate_next r)]
    rfl

theorem held_slowScanCycle (o : SlowOracle) : held (slowScanCycle o) = ⟨0, 0⟩ := by
  unfold slowScanCycle
  have hrows : ∀ h : Held, (slowRows o.rows 0).1.foldl Held.after h = h :=
    held_all_plain _ (plain_slowRows o.rows 0)
  cases o.queryOk <;>
    simp only [if_true, if_false, Bool.false_eq_true, held, held_append, List.foldl_cons,
      hrows] <;> rfl

theorem held_lockTask (g : Nat) (o : LockOracle) : held (lockTask g o) = ⟨0, 0⟩ := by
  rcases o with ⟨b, f, t, _, _, _⟩
  cases b <;> cases f <;> cases t <;> rfl

theorem held_deadlockTasks (o : DeadOracle) :
    held (deadlockTask1 o) = ⟨0, 0⟩ ∧ held (deadlockTask2 o) = ⟨0, 0⟩ := by
  rcases o with ⟨b, f, t⟩
  cases b <;> cases f <;> cases t <;> exact ⟨rfl, rfl⟩

/-- C4: what each generator still holds when a cycle (or sub-task) reaches
its end.  Six generators hold nothing, whatever the outcomes.  A cycle of
`inefficientQueries` whose second query succeeds ends holding one open
result set: the rows of the second `Query` are assigned to `_` and never
closed. -/
theorem inefficientQueries_keeps_rows (lo : LongOracle) (g : Nat) (ko : LockOracle)
    (c r : Nat) (ok : Bool) (ho : HeavyOracle) (d : DeadOracle) (so : SlowOracle)
    (firstOk : Bool) (rows : List Bool) :
    held (longRunningCycle lo) = ⟨0, 0⟩ ∧
    held (lockTask g ko) = ⟨0, 0⟩ ∧
    held (poolTask c ok r) = ⟨0, 0⟩ ∧
    held (heavyWriteCycle ho) = ⟨0, 0⟩ ∧
    held (deadlockTask1 d) = ⟨0, 0⟩ ∧ held (deadlockTask2 d) = ⟨0, 0⟩ ∧
    held (slowScanCycle so) = ⟨0, 0⟩ ∧
    held (inefficientCycle { firstOk := firstOk, rows := rows, secondOk := false }) = ⟨0, 0⟩ ∧
    held (inefficientCycle { firstOk := firstOk, rows := rows, secondOk := true }) = ⟨0, 1⟩ ∧
    (inefficientCycle { firstOk := firstOk, rows := rows, secondOk := true }).getLast?
      = some (Event.sleep 20000) :=
  ⟨held_longRunningCycle lo, held_lockTask g ko, held_poolTask c ok r,
   held_all_plain _ (plain_heavyWriteCycle ho) _, (held_deadlockTasks d).1,
   (held_deadlockTasks d).2, held_slowScanCycle so,
   held_inefficientCycle _, held_inefficientCycle _, by simp [inefficientCycle]⟩

theorem afterFailure_append (a b : List Event) :
    afterFailure (a ++ b) =
      match afterFailure a with
      | some r => some (r ++ b)
      | none => afterFailure b := by
  induction a with
  | nil => rfl
  | cons e a ih =>
    simp only [List.cons_append, afterFailure]
    cases e.failed
    · simpa using ih
    · simp

theorem failed_plain_rows (e : Event) (h : e.isStmt = false) : e.failed = false := by
  cases e <;> first | rfl | (simp [Event.isStmt] at h)

theorem afterFailure_none (t : List Event) (h : ∀ e ∈ t, e.isStmt = false) :
    afterFailure t = none := by
  induction t with
  | nil => rfl
  | cons e t ih =>
    simp only [afterFailure, failed_plain_rows e (h e (List.mem_cons_self e t))]
    exact ih (fun x hx => h x (List.mem_cons_of_mem e hx))

theorem afterFailure_longUpdates (o : LongOracle) (n : Nat) :
    ∀ i, (∃ k, k < n ∧ o.updateOk (i + k) = false) →
      afterFailure (longUpdates o n i)
        = some [Event.log "Error in long transaction update: %v" []] := by
  induction n with
  | zero => rintro i ⟨k, hk, _⟩; omega
  | succ n ih =>
    rintro i ⟨k, hk, hu⟩
    unfold longUpdates
    cases h0 : o.updateOk i
    · simp [afterFailure, Event.failed]
    · simp only [if_true, afterFailure, Event.failed, Bool.false_eq_true, if_false]
      apply ih (i + 1)
      cases k with
      | zero => rw [Nat.add_zero, h0] at hu; cases hu
      | succ k =>
        refine ⟨k, by omega, ?_⟩
        have e : i + 1 + k = i + (k + 1) := by omega
        rw [e]; exact hu

theorem commits_append (a b : List Event) : commits (a ++ b) = commits a + commits b := by
  simp [commits]

theorem commits_longUpdates (o : LongOracle) (n i : Nat) : commits (longUpdates o n i) = 0 := by
  unfold commits
  rw [List.count_eq_zero]
  intro h
  have := plain_longUpdates o n i _ h
  simp [Event.plain] at this

/-- C6: the two `deadlockScenarios` sub-tasks update rows 1 and 2 in opposite
order.  A sub-task whose first or second update fails logs that failure and
then only rolls back and returns: it issues no further statement, repeats
none and never commits.  A sub-task whose two updates succeed has sent each
of the two `+ 10` updates exactly once, all before its single `Commit`. -/
theorem deadlock_subtask_outcomes (o : DeadOracle) :
    (o.beginOk = true → o.firstOk = true →
      stmts (deadlockTask1 o) = [Stmt.addTen 1, Stmt.addTen 2] ∧
      stmts (deadlockTask2 o) = [Stmt.addTen 2, Stmt.addTen 1]) ∧
    (o.beginOk = true → o.firstOk = false →
      afterFailure (deadlockTask1 o) =
        some [Event.log "Deadlock scenario 1: Error updating user 1: %v" [],
              Event.rollback, Event.done] ∧
      afterFailure (deadlockTask2 o) =
        some [Event.log "Deadlock scenario 2: Error updating user 2: %v" [],
              Event.rollback, Event.done] ∧
      stmts (deadlockTask1 o) = [Stmt.addTen 1] ∧
      stmts (deadlockTask2 o) = [Stmt.addTen 2] ∧
      commits (deadlockTask1 o) = 0 ∧ commits (deadlockTask2 o) = 0) ∧
    (o.beginOk = true → o.firstOk = true → o.secondOk = false →
      afterFailure (deadlockTask1 o) =
        some [Event.log "Deadlock scenario 1: Error updating user 2: %v" [],
              Event.rollback, Event.done] ∧
      afterFailure (deadlockTask2 o) =
        some [Event.log "Deadlock scenario 2: Error updating user 1: %v" [],
              Event.rollback, Event.done] ∧
      commits (deadlockTask1 o) = 0 ∧ commits (deadlockTask2 o) = 0) ∧
    (o.beginOk = true → o.firstOk = true → o.secondOk = true →
      afterFailure (deadlockTask1 o) = none ∧ afterFailure (deadlockTask2 o) = none ∧
      commits (deadlockTask1 o) = 1 ∧ commits (deadlockTask2 o) = 1 ∧
      (∃ pre post, deadlockTask1 o = pre ++ Event.commit :: post ∧
        stmts pre = [Stmt.addTen 1, Stmt.addTen 2] ∧ stmts post = []) ∧
      (∃ pre post, deadlockTask2 o = pre ++ Event.commit :: post ∧
        stmts pre = [Stmt.addTen 2, Stmt.addTen 1] ∧ stmts post = [])) := by
  rcases o with ⟨b, f, t⟩
  refine ⟨?_, ?_, ?_, ?_⟩
  · rintro hb hf
    simp only at hb hf
    subst hb hf
    cases t <;> exact ⟨rfl, rfl⟩
  · rintro hb hf
    simp only at hb hf
    subst hb hf
    exact ⟨rfl, rfl, rfl, rfl, rfl, rfl⟩
  · rintro hb hf ht
    simp only at hb hf ht
    subst hb hf ht
    exact ⟨rfl, rfl, rfl, rfl⟩
  · rintro hb hf ht
    simp only at hb hf ht
    subst hb hf ht
    refine ⟨rfl, rfl, rfl, rfl, ?_, ?_⟩
    · exact ⟨[Event.begin true, Event.exec true (Stmt.addTen 1) true, Event.sleep 2000,
          Event.exec true (Stmt.addTen 2) true],
        [Event.log "Deadlock scenario 1: Transaction completed successfully" [],
          Event.rollback, Event.done], rfl, rfl, rfl⟩
    · exact ⟨[Event.sleep 500, Event.begin true, Event.exec true (Stmt.addTen 2) true,
          Event.sleep 2000, Event.exec true (Stmt.addTen 1) true],
        [Event.log "Deadlock scenario 2: Transaction completed successfully" [],
          Event.rollback, Event.done], rfl, rfl, rfl⟩

theorem noDeadline_of_plain (t : List Event) (h : ∀ e ∈ t, e.plain = true) :
    t.all (fun e => e.deadline.isNone) = true := by
  rw [List.all_eq_true]
  intro e he
  rw [deadline_plain e (h e he)]
  rfl

theorem stmts_slowTableScans (o : Nat → SlowOracle) (n : Nat) :
    stmts (slowTableScans o n) = List.replicate n Stmt.aggregateLarge := by
  induction n with
  | zero => rfl
  | succ n ih =>
    rw [slowTableScans, stmts_append, ih, stmts_slowScanCycle, List.replicate_succ']

/-- C8: every `slowTableScans` cycle starts with the aggregation query under
a 45 s deadline followed by `cancel()`; when that query fails (a timeout
included) the cycle logs the error, reads no row, and sleeps 25 s; every
cycle ends with the 25 s sleep and the first `n` passes of the loop issue
the query `n` times whatever the earlier outcomes; no action of the other
six generators carries a deadline. -/
theorem slowTableScans_deadline (o : SlowOracle) (rows : List Bool) (os : Nat → SlowOracle)
    (n : Nat) (lo : LongOracle) (g : Nat) (ko : LockOracle) (io : IneffOracle)
    (c r : Nat) (ok : Bool) (ho : HeavyOracle) (d : DeadOracle) :
    (∃ t, slowScanCycle o =
      Event.query (some 45000) Stmt.aggregateLarge o.queryOk :: Event.cancel :: t) ∧
    slowScanCycle { queryOk := false, rows := rows } =
      [Event.query (some 45000) Stmt.aggregateLarge false, Event.cancel,
       Event.log "Error in slow table scan: %v" [], Event.sleep 25000] ∧
    (∃ pre, slowScanCycle o = pre ++ [Event.sleep 25000]) ∧
    stmts (slowTableScans os n) = List.replicate n Stmt.aggregateLarge ∧
    slowTableScans os (n + 1) = slowTableScans os n ++ slowScanCycle (os n) ∧
    (∀ e ∈ longRunningCycle lo ++ lockTask g ko ++ inefficientCycle io ++ poolTask c ok r
        ++ heavyWriteCycle ho ++ deadlockTask1 d ++ deadlockTask2 d,
      e.deadline = none) := by
  refine ⟨⟨_, rfl⟩, rfl, ⟨_, rfl⟩, stmts_slowTableScans os n, rfl, ?_⟩
  have key : (longRunningCycle lo ++ lockTask g ko ++ inefficientCycle io ++ poolTask c ok r
        ++ heavyWriteCycle ho ++ deadlockTask1 d ++ deadlockTask2 d).all
          (fun e => e.deadline.isNone) = true := by
    have h1 : (longRunningCycle lo).all (fun e => e.deadline.isNone) = true := by
      have := noDeadline_of_plain _ (plain_longUpdates lo 10 0)
      unfold longRunningCycle
      cases lo.beginOk <;> cases lo.selectOk <;>
        (simp only [if_true, if_false, Bool.false_eq_true, List.all_append, this]; try rfl)
    have h2 : (lockTask g ko).all (fun e => e.deadline.isNone) = true := by
      rcases ko with ⟨b, f, t, _, _, _⟩
      cases b <;> cases f <;> cases t <;> rfl
    have h3 : (inefficientCycle io).all (fun e => e.deadline.isNone) = true := by
      have := noDeadline_of_plain _ (plain_ineffRows io.rows 0)
      unfold inefficientCycle
      cases io.firstOk <;> cases io.secondOk <;>
        (simp only [if_true, if_false, Bool.false_eq_true, List.all_append, List.all_cons,
          this]; try rfl)
    have h4 : (poolTask c ok r).all (fun e => e.deadline.isNone) = true := by
      have := noDeadline_of_plain _ (plain_replicate_next r)
      unfold poolTask
      cases ok <;>
        (simp only [if_true, if_false, Bool.false_eq_true, List.all_append, List.all_cons,
          this]; try rfl)
    have h5 := noDeadline_of_plain _ (plain_heavyWriteCycle ho)
    have h6 : (deadlockTask1 d).all (fun e => e.deadline.isNone) = true ∧
        (deadlockTask2 d).all (fun e => e.deadline.isNone) = true := by
      rcases d with ⟨b, f, t⟩
      cases b <;> cases f <;> cases t <;> exact ⟨rfl, rfl⟩
    simp only [List.all_append, h1, h2, h3, h4, h5, h6.1, h6.2, Bool.and_self]
  intro e he
  have := (List.all_eq_true.1 key) e he
  simpa using this

theorem fl_skip (e : Event) (t : List Event) (h : e.failed = false) :
    failuresLogged (e :: t) = failuresLogged t := by
  simp [failuresLogged, h]

theorem fl_fail (e : Event) (f : String) (a : List Nat) (t : List Event) :
    failuresLogged (e :: Event.log f a :: t) = failuresLogged t := by
  simp [failuresLogged, Event.isLog, Event.failed]

theorem fl_exec_ok (b : Bool) (s : Stmt) (t : List Event) :
    failuresLogged (Event.exec b s true :: t) = failuresLogged t :=
  fl_skip _ _ rfl

theorem fl_sleep (n : Nat) (t : List Event) :
    failuresLogged (Event.sleep n :: t) = failuresLogged t :=
  fl_skip _ _ rfl

theorem fl_query_ok (d : Option Nat) (s : Stmt) (t : List Event) :
    failuresLogged (Event.query d s true :: t) = failuresLogged t :=
  fl_skip _ _ rfl

theorem fl_begin (b : Bool) (t : List Event) :
    failuresLogged (Event.begin b :: t) = failuresLogged t :=
  fl_skip _ _ rfl

theorem fl_log (f : String) (a : List Nat) (t : List Event) :
    failuresLogged (Event.log f a :: t) = failuresLogged t :=
  fl_skip _ _ rfl

theorem fl_cancel (t : List Event) :
    failuresLogged (Event.cancel :: t) = failuresLogged t :=
  fl_skip _ _ rfl

theorem fl_exec_fail (b : Bool) (s : Stmt) (f : String) (a : List Nat) (t : List Event) :
    failuresLogged (Event.exec b s false :: Event.log f a :: t) = failuresLogged t :=
  fl_fail _ _ _ _

theorem fl_append_of_no_stmt (a b : List Event) (h : ∀ e ∈ a, e.isStmt = false) :
    failuresLogged (a ++ b) = failuresLogged b := by
  induction a with
  | nil => rfl
  | cons e a ih =>
    rw [List.cons_append, fl_skip _ _ (failed_plain_rows e (h e (List.mem_cons_self e a)))]
    exact ih (fun x hx => h x (List.mem_cons_of_mem e hx))

theorem fl_heavyInserts (o : HeavyOracle) (n : Nat) (rest : List Event) :
    ∀ i, failuresLogged (heavyInserts o n i ++ rest) = failuresLogged rest := by
  induction n with
  | zero => intro i; rfl
  | succ n ih =>
    intro i
    rw [heavyInserts, List.append_assoc]
    cases o.insertOk i
    · simp only [Bool.false_eq_true, if_false, List.cons_append, List.nil_append]
      rw [fl_exec_fail]
      exact ih (i + 1)
    · simp only [if_true, List.cons_append, List.nil_append]
      rw [fl_exec_ok]
      exact ih (i + 1)

theorem fl_heavyUpdates (o : HeavyOracle) (n : Nat) (rest : List Event) :
    ∀ i, failuresLogged (heavyUpdates o n i ++ rest) = failuresLogged rest := by
  induction n with
  | zero => intro i; rfl
  | succ n ih =>
    intro i
    rw [heavyUpdates, List.append_assoc]
    cases o.updateOk i
    · simp only [Bool.false_eq_true, if_false, List.cons_append, List.nil_append]
      rw [fl_exec_fail]
      exact ih (i + 1)
    · simp only [if_true, List.cons_append, List.nil_append]
      rw [fl_exec_ok]
      exact ih (i + 1)

theorem fl_longUpdates (o : LongOracle) (n : Nat) (rest : List Event) (hr : failuresLogged rest = true) :
    ∀ i, failuresLogged (longUpdates o n i ++ rest) = true := by
  induction n with
  | zero => intro i; exact hr
  | succ n ih =>
    intro i
    unfold longUpdates
    cases o.updateOk i
    · simp only [Bool.false_eq_true, if_false, List.cons_append, List.nil_append]
      rw [fl_exec_fail]
      exact hr
    · simp only [if_true, List.cons_append]
      rw [fl_exec_ok, fl_sleep]
      exact ih (i + 1)

theorem noStmt_ineffRows (rows : List Bool) :
    ∀ c, ∀ e ∈ (ineffRows rows c).1, e.isStmt = false := by
  induction rows with
  | nil => intro c e h; simp [ineffRows] at h; subst h; rfl
  | cons b rows ih =>
    intro c e h
    cases b
    · simp only [ineffRows, List.mem_cons] at h
      rcases h with rfl | rfl | rfl | h
      · rfl
      · rfl
      · rfl
      · exact ih c e h
    · simp only [ineffRows, List.mem_cons] at h
      rcases h with rfl | rfl | rfl | h
      · rfl
      · rfl
      · rfl
      · exact ih (c + 1) e h

theorem noStmt_slowRows (rows : List Bool) :
    ∀ c, ∀ e ∈ (slowRows rows c).1, e.isStmt = false := by
  induction rows with
  | nil => intro c e h; simp [slowRows] at h; subst h; rfl
  | cons b rows ih =>
    intro c e h
    cases b
    · simp only [slowRows, List.mem_cons] at h
      rcases h with rfl | rfl | rfl | h
      · rfl
      · rfl
      · rfl
      · exact ih c e h
    · simp only [slowRows, List.mem_cons] at h
      rcases h with rfl | rfl | h
      · rfl
      · rfl
      · exact ih (c + 1) e h

theorem noStmt_replicate_next (n : Nat) :
    ∀ e ∈ List.replicate n (Event.next true), e.isStmt = false := by
  intro e h
  rw [List.eq_of_mem_replicate h]
  rfl

/-! ## The cycle of `lockContentionScenario` -/

theorem pendingDone_lockTask (g : Nat) (o : LockOracle) :
    (lockTask g o).count Event.done = 1 := by
  rcases o with ⟨b, f, t, _, _, _⟩
  cases b <;> cases f <;> cases t <;> simp [lockTask]

theorem getLast_lockTask (g : Nat) (o : LockOracle) :
    (lockTask g o).getLast? = some Event.done := by
  rcases o with ⟨b, f, t, _, _, _⟩
  cases b <;> cases f <;> cases t <;> rfl

theorem done_mem_rest (g : Nat) (o : LockOracle) (p q : List Event)
    (h : p ++ q = lockTask g o) (hq : q ≠ []) : Event.done ∈ q := by
  have hl := getLast_lockTask g o
  rw [← h, List.getLast?_append_of_ne_nil p hq] at hl
  exact List.mem_of_getLast?_eq_some hl

theorem wgAfter_eq (wg : Nat) (e : Event) :
    wgAfter wg e = wg - (if e = Event.done then 1 else 0) := by
  cases e <;> simp [wgAfter]

theorem pending_set (l : List (List Event × List Event)) :
    ∀ (j : Nat) (p : List Event) (e : Event) (rest : List Event),
      l[j]? = some (p, e :: rest) →
      (l.map pendingDone).sum =
        ((l.set j (p ++ [e], rest)).map pendingDone).sum
          + (if e = Event.done then 1 else 0) := by
  induction l with
  | nil => intro j p e rest h; simp at h
  | cons x l ih =>
    intro j p e rest h
    cases j with
    | zero =>
      simp only [List.getElem?_cons_zero, Option.some.injEq] at h
      subst h
      simp only [List.set_cons_zero, List.map_cons, List.sum_cons, pendingDone,
        List.count_cons, beq_iff_eq]
      omega
    | succ j =>
      simp only [List.getElem?_cons_succ] at h
      have := ih j p e rest h
      simp only [List.set_cons_succ, List.map_cons, List.sum_cons]
      omega

theorem Cycle.inv_init (o : Nat → LockOracle) : Cycle.Inv o Cycle.init :=
  ⟨rfl, by decide, fun h => absurd rfl h, fun h => (by cases h), rfl,
   fun j t h => (by simp [Cycle.init] at h)⟩

theorem Cycle.inv_step (o : Nat → LockOracle) (c c1 : Cycle) (ch : Choice)
    (hc : Cycle.Inv o c) (hs : c.step o ch = some c1) : Cycle.Inv o c1 := by
  cases ch with
  | generator =>
    simp only [Cycle.step] at hs
    cases hpc : c.pc
    · by_cases hi : c.i < 10
      · simp only [hpc, hi, if_true, Option.some.injEq] at hs
        subst hs
        refine ⟨by simp [hc.len], hi, fun h => absurd rfl h, fun h => (by cases h), ?_, ?_⟩
        · simp only [List.map_append, List.sum_append, List.map_cons, List.map_nil,
            List.sum_cons, List.sum_nil, pendingDone, pendingDone_lockTask]
          have := hc.wg
          simp only [pendingDone] at this
          omega
        · intro j t h
          simp only at h
          by_cases hj : j < c.tasks.length
          · rw [List.getElem?_append_left hj] at h
            exact hc.split j t h
          · have hj2 : c.tasks.length ≤ j := Nat.le_of_not_lt hj
            rw [List.getElem?_append_right hj2] at h
            have hj3 : j - c.tasks.length = 0 := by
              by_contra hne
              have : ([(([] : List Event), lockTask c.i (o c.i))] :
                  List (List Event × List Event))[j - c.tasks.length]? = none := by
                apply List.getElem?_eq_none
                simp only [List.length_singleton]
                omega
              rw [this] at h
              cases h
            rw [hj3] at h
            simp only [List.getElem?_cons_zero, Option.some.injEq] at h
            subst h
            have : j = c.i := by have := hc.len; omega
            subst this
            rfl
      · simp only [hpc, hi, if_false, Option.some.injEq] at hs
        subst hs
        exact ⟨hc.len, hc.ile, fun _ => (by have := hc.ile; simp only at hi ⊢; omega),
          fun h => (by cases h), hc.wg, hc.split⟩
    · by_cases hw : c.wg = 0
      · simp only [hpc, hw, if_true, Option.some.injEq] at hs
        subst hs
        have hwg := hc.wg
        rw [hw] at hwg
        exact ⟨hc.len, hc.ile, fun _ => hc.pcs (by rw [hpc]; decide), fun _ => rfl,
          hwg, hc.split⟩
      · simp only [hpc, hw, if_false] at hs
        cases hs
    · simp only [hpc] at hs
      cases hs
  | task j =>
    simp only [Cycle.step] at hs
    rcases ht : c.tasks[j]? with _ | ⟨p, _ | ⟨e, rest⟩⟩
    · simp only [ht] at hs; cases hs
    · simp only [ht] at hs; cases hs
    · simp only [ht, Option.some.injEq] at hs
      subst hs
      have hsum := pending_set c.tasks j p e rest ht
      refine ⟨by simp [hc.len], hc.ile, hc.pcs, ?_, ?_, ?_⟩
      · intro h
        have := hc.cool h
        simp only [wgAfter_eq]
        omega
      · have := hc.wg
        simp only [wgAfter_eq]
        split_ifs at hsum ⊢ <;> omega
      · intro k t h
        simp only [List.getElem?_set] at h
        by_cases hk : j = k
        · subst hk
          have hlt : j < c.tasks.length := by
            by_contra hge
            rw [List.getElem?_eq_none (Nat.le_of_not_lt hge)] at ht
            cases ht
          simp only [if_true, hlt, Option.some.injEq] at h
          subst h
          have := hc.split j _ ht
          simpa using this
        · simp only [hk, if_false] at h
          exact hc.split k t h

theorem Cycle.inv_run (o : Nat → LockOracle) (s : List Choice) :
    ∀ (c c1 : Cycle), Cycle.Inv o c → Cycle.run o s c = some c1 → Cycle.Inv o c1 := by
  induction s with
  | nil =>
    intro c c1 hc h
    simp only [Cycle.run, Option.some.injEq] at h
    subst h; exact hc
  | cons ch s ih =>
    intro c c1 hc h
    unfold Cycle.run at h
    cases hs : c.step o ch with
    | none => simp only [hs] at h; cases h
    | some c2 =>
      simp only [hs] at h
      exact ih c2 c1 (Cycle.inv_step o c c2 ch hc hs) h

theorem commits_lockTask (g : Nat) (o : LockOracle) : commits (lockTask g o) ≤ 1 := by
  rcases o with ⟨b, f, t, _, _, _⟩
  cases b <;> cases f <;> cases t <;> simp [lockTask, commits]

/-- A sub-task that has called `Commit` has before it, in its transaction,
locked its target row and updated that same row, both with success. -/
theorem commit_lockTask (g : Nat) (o : LockOracle) (p q : List Event)
    (h : p ++ q = lockTask g o) (hc : Event.commit ∈ p) :
    ∃ post, p =
      [Event.begin true,
       Event.log "Goroutine %d: Attempting to lock user %d" [g, targetID o],
       Event.exec true (Stmt.selectForUpdate (targetID o)) true,
       Event.sleep ((Intn 10 o.sleepDraw + 5) * 1000),
       Event.exec true (Stmt.addBalance o.amountDraw (targetID o)) true]
      ++ Event.commit :: post := by
  have hmem : Event.commit ∈ lockTask g o := by
    rw [← h]; exact List.mem_append_left q hc
  rcases o with ⟨b, f, t, td, sd, ad⟩
  cases b <;> cases f <;> cases t <;>
    try (exfalso; simp [lockTask] at hmem; done)
  have h2 : p ++ q =
      [Event.begin true,
       Event.log "Goroutine %d: Attempting to lock user %d" [g, targetID ⟨true, true, true, td, sd, ad⟩],
       Event.exec true (Stmt.selectForUpdate (targetID ⟨true, true, true, td, sd, ad⟩)) true,
       Event.sleep ((Intn 10 sd + 5) * 1000),
       Event.exec true (Stmt.addBalance ad (targetID ⟨true, true, true, td, sd, ad⟩)) true]
      ++ (Event.commit ::
        [Event.log "Goroutine %d: Successfully updated user %d"
           [g, targetID ⟨true, true, true, td, sd, ad⟩], Event.rollback, Event.done]) := h
  rcases List.append_eq_append_iff.1 h2 with ⟨a1, ha, _⟩ | ⟨c1, hp, hq⟩
  · exfalso
    have : Event.commit ∈ ([Event.begin true,
       Event.log "Goroutine %d: Attempting to lock user %d" [g, targetID ⟨true, true, true, td, sd, ad⟩],
       Event.exec true (Stmt.selectForUpdate (targetID ⟨true, true, true, td, sd, ad⟩)) true,
       Event.sleep ((Intn 10 sd + 5) * 1000),
       Event.exec true (Stmt.addBalance ad (targetID ⟨true, true, true, td, sd, ad⟩)) true] :
         List Event) := by
      rw [ha]; exact List.mem_append_left a1 hc
    simp at this
  · cases c1 with
    | nil =>
      exfalso
      rw [List.append_nil] at hp
      rw [hp] at hc
      simp at hc
    | cons x c1 =>
      simp only [List.cons_append, List.cons.injEq] at hq
      rw [← hq.1] at hp
      exact ⟨c1, hp⟩

theorem sum_le_length {α : Type} (f : α → Nat) (l : List α) (h : ∀ t ∈ l, f t ≤ 1) :
    (l.map f).sum ≤ l.length := by
  induction l with
  | nil => simp
  | cons x l ih =>
    have h1 := h x (List.mem_cons_self x l)
    have h2 := ih (fun t ht => h t (List.mem_cons_of_mem x ht))
    simp only [List.map_cons, List.sum_cons, List.length_cons]
    omega

theorem eq_zero_of_sum_eq_zero {α : Type} (f : α → Nat) (l : List α)
    (h : (l.map f).sum = 0) : ∀ t ∈ l, f t = 0 := by
  induction l with
  | nil => intro t ht; cases ht
  | cons x l ih =>
    simp only [List.map_cons, List.sum_cons] at h
    intro t ht
    rcases List.mem_cons.1 ht with rfl | ht
    · omega
    · exact ih (by omega) t ht

/-- C7: in every state a cycle of `lockContentionScenario` can reach, under
any outcomes, draws and scheduling: at most 10 sub-tasks exist and at most 10
commits have been issued, each sub-task has committed at most once, a
sub-task that has committed had before, in the same transaction, a
successful `SELECT ... FOR UPDATE` on its target row and a successful update
of that same row, and when the generator is in its cooldown sleep all 10
sub-tasks have run to their end. -/
theorem lockContention_cycle (o : Nat → LockOracle) (sched : List Choice) (c : Cycle)
    (h : Cycle.run o sched Cycle.init = some c) :
    c.tasks.length ≤ 10 ∧ c.commits ≤ 10 ∧
    (∀ j t, c.tasks[j]? = some t →
      t.1 ++ t.2 = lockTask j (o j) ∧ commits t.1 ≤ 1 ∧
      (Event.commit ∈ t.1 → ∃ post, t.1 =
        [Event.begin true,
         Event.log "Goroutine %d: Attempting to lock user %d" [j, targetID (o j)],
         Event.exec true (Stmt.selectForUpdate (targetID (o j))) true,
         Event.sleep ((Intn 10 (o j).sleepDraw + 5) * 1000),
         Event.exec true (Stmt.addBalance (o j).amountDraw (targetID (o j))) true]
        ++ Event.commit :: post)) ∧
    (c.pc = Pc.cooldown →
      c.tasks.length = 10 ∧ ∀ j, j < 10 → c.tasks[j]? = some (lockTask j (o j), [])) := by
  have hinv := Cycle.inv_run o sched Cycle.init c (Cycle.inv_init o) h
  have hlen : c.tasks.length ≤ 10 := by rw [hinv.len]; exact hinv.ile
  have hone : ∀ (j : Nat) (t : List Event × List Event),
      c.tasks[j]? = some t → commits t.1 ≤ 1 := by
    intro j t ht
    have h1 := commits_lockTask j (o j)
    rw [← hinv.split j t ht, commits_append] at h1
    omega
  refine ⟨hlen, ?_, ?_, ?_⟩
  · have : c.commits ≤ c.tasks.length := by
      apply sum_le_length
      intro t ht
      obtain ⟨j, hj⟩ := List.getElem?_of_mem ht
      exact hone j t hj
    omega
  · intro j t ht
    exact ⟨hinv.split j t ht, hone j t ht,
      fun hc => commit_lockTask j (o j) t.1 t.2 (hinv.split j t ht) hc⟩
  · intro hpc
    have hi : c.i = 10 := hinv.pcs (by rw [hpc]; decide)
    have hl : c.tasks.length = 10 := by rw [hinv.len, hi]
    refine ⟨hl, ?_⟩
    intro j hj
    have hjl : j < c.tasks.length := by omega
    have hget : c.tasks[j]? = some (c.tasks[j]) := List.getElem?_eq_getElem hjl
    generalize c.tasks[j] = t at hget
    have hsplit := hinv.split j t hget
    have hsum : (c.tasks.map pendingDone).sum = 0 := by
      rw [← hinv.wg]; exact hinv.cool hpc
    have hz := eq_zero_of_sum_eq_zero pendingDone c.tasks hsum t
      (List.mem_iff_getElem?.2 ⟨j, hget⟩)
    have hnil : t.2 = [] := by
      by_contra hne
      have := done_mem_rest j (o j) t.1 t.2 hsplit hne
      have hpos := List.count_pos_iff.2 this
      simp only [pendingDone] at hz
      omega
    rw [hget]
    rcases t with ⟨t1, t2⟩
    simp only at hnil hsplit
    subst hnil
    rw [List.append_nil] at hsplit
    rw [hsplit]

/-- Ten sub-tasks that all succeed, run one after the other: the cycle
reaches its cooldown with ten commits. -/
theorem lockContention_cycle_witness :
    ∃ c, Cycle.run lockAllOk sequentialSchedule Cycle.init = some c ∧
      c.pc = Pc.cooldown ∧ c.commits = 10 ∧
      c.tasks.length = 10 ∧
      ∀ j, j < 10 → c.tasks[j]? = some (lockTask j (lockAllOk j), []) :=
  ⟨_, rfl, rfl, rfl,
    ((lockContention_cycle lockAllOk sequentialSchedule _ rfl).2.2.2 rfl).1,
    ((lockContention_cycle lockAllOk sequentialSchedule _ rfl).2.2.2 rfl).2⟩

theorem fl_seedUsers (o : BootOracle) (n : Nat) (rest : List Event) :
    ∀ i, failuresLogged (seedUsers o n i ++ rest) = failuresLogged rest := by
  induction n with
  | zero => intro i; rfl
  | succ n ih =>
    intro i
    rw [seedUsers, List.append_assoc]
    cases o.userOk i
    · simp only [Bool.false_eq_true, if_false, List.cons_append, List.nil_append]
      rw [fl_exec_fail]
      exact ih (i + 1)
    · simp only [if_true, List.cons_append, List.nil_append]
      rw [fl_exec_ok]
      exact ih (i + 1)

theorem fl_seedLarge (o : BootOracle) (n : Nat) (rest : List Event) :
    ∀ i, failuresLogged (seedLarge o n i ++ rest) = failuresLogged rest := by
  induction n with
  | zero => intro i; rfl
  | succ n ih =>
    intro i
    rw [seedLarge, List.append_assoc]
    cases o.largeOk i
    · simp only [Bool.false_eq_true, if_false, List.cons_append, List.nil_append]
      rw [fl_exec_fail]
      exact ih (i + 1)
    · simp only [if_true, List.cons_append, List.nil_append]
      rw [fl_exec_ok]
      exact ih (i + 1)

theorem fl_creates (ts : List Table) (rest : List Event) :
    failuresLogged ((ts.map fun u => Event.exec false (Stmt.createTable u) true) ++ rest)
      = failuresLogged rest := by
  induction ts with
  | nil => rfl
  | cons t ts ih =>
    simp only [List.map_cons, List.cons_append]
    rw [fl_exec_ok]
    exact ih


theorem fl_bootTrace (o : BootOracle) (ts : List Table) (n i m k : Nat) :
    failuresLogged
      (Event.log "Initializing database tables and data..." []
        :: (ts.map fun u => Event.exec false (Stmt.createTable u) true)
        ++ [Event.log "Inserting initial data..." []]
        ++ seedUsers o n i
        ++ seedLarge o m k
        ++ [Event.log "Database initialization complete!" []]) = true := by
  simp only [List.append_assoc, List.cons_append, List.nil_append]
  rw [fl_log, fl_creates, fl_log, fl_seedUsers, fl_seedLarge]
  rfl

/-- The three outcomes of the first sub-task whose `Begin` succeeds. -/
theorem deadlock_subtask_outcomes_witness :
    commits (deadlockTask1 { beginOk := true, firstOk := true, secondOk := true }) = 1 ∧
    commits (deadlockTask1 { beginOk := true, firstOk := true, secondOk := false }) = 0 ∧
    commits (deadlockTask1 { beginOk := true, firstOk := false, secondOk := true }) = 0 ∧
    stmts (deadlockTask2 { beginOk := true, firstOk := true, secondOk := true })
      = [Stmt.addTen 2, Stmt.addTen 1] :=
  ⟨((deadlock_subtask_outcomes ⟨true, true, true⟩).2.2.2 rfl rfl rfl).2.2.1,
   ((deadlock_subtask_outcomes ⟨true, true, false⟩).2.2.1 rfl rfl rfl).2.2.1,
   ((deadlock_subtask_outcomes ⟨true, false, true⟩).2.1 rfl rfl).2.2.2.2.1,
   ((deadlock_subtask_outcomes ⟨true, true, true⟩).1 rfl rfl).2⟩

theorem fl_cycles (lo : LongOracle) (io : IneffOracle) (c r : Nat) (ok : Bool)
    (ho : HeavyOracle) (so : SlowOracle) :
    failuresLogged (longRunningCycle lo) = true ∧
    failuresLogged (inefficientCycle io) = true ∧
    failuresLogged (poolTask c ok r) = true ∧
    failuresLogged (heavyWriteCycle ho) = true ∧
    failuresLogged (slowScanCycle so) = true := by
  refine ⟨?_, ?_, ?_, ?_, ?_⟩
  · unfold longRunningCycle
    cases lo.beginOk
    · rfl
    · cases lo.selectOk
      · rfl
      · simp only [if_true, List.append_assoc]
        change failuresLogged (Event.begin true :: Event.exec true _ true :: Event.log _ _
          :: Event.sleep 30000 :: (longUpdates lo 10 0 ++ _)) = true
        rw [fl_begin, fl_exec_ok, fl_log, fl_sleep]
        exact fl_longUpdates lo 10
          [Event.commit, Event.log "Long transaction completed" [], Event.sleep 10000] rfl 0
  · unfold inefficientCycle
    cases io.firstOk <;> cases io.secondOk <;>
      simp only [if_true, if_false, Bool.false_eq_true, List.append_assoc, List.cons_append,
        List.nil_append] <;>
      first
        | rfl
        | (rw [fl_query_ok, fl_append_of_no_stmt _ _ (noStmt_ineffRows io.rows 0)]; rfl)
  · unfold poolTask
    cases ok
    · rfl
    · simp only [if_true, List.cons_append]
      rw [fl_query_ok, fl_append_of_no_stmt _ _ (noStmt_replicate_next r)]
      rfl
  · unfold heavyWriteCycle
    rw [List.append_assoc, List.append_assoc, fl_heavyInserts, fl_heavyUpdates]
    cases ho.deleteOk <;> rfl
  · unfold slowScanCycle
    cases so.queryOk
    · rfl
    · simp only [if_true, List.append_assoc, List.cons_append, List.nil_append]
      rw [fl_query_ok, fl_cancel, fl_append_of_no_stmt _ _ (noStmt_slowRows so.rows 0)]
      rfl

/-! ## Lemmas on the transaction -/

/-- Through the update loop of `longRunningTransactions` the transaction
either stays healthy and no statement fails, or a statement fails, the block
is aborted, and the loop ends with the log line. -/
theorem tx_longUpdates (o : LongOracle) (tail : List Event) (n : Nat) :
    ∀ i,
      (afterFailureFrom TxState.active (longUpdates o n i ++ tail)
          = afterFailureFrom TxState.active tail ∧
        txRun TxState.active (longUpdates o n i ++ tail) = txRun TxState.active tail) ∨
      (afterFailureFrom TxState.active (longUpdates o n i ++ tail)
          = some (TxState.failed,
              Event.log "Error in long transaction update: %v" [] :: tail) ∧
        txRun TxState.active (longUpdates o n i ++ tail) = txRun TxState.failed tail) := by
  induction n with
  | zero => intro i; left; exact ⟨rfl, rfl⟩
  | succ n ih =>
    intro i
    unfold longUpdates
    cases o.updateOk i
    · right; exact ⟨rfl, rfl⟩
    · simp only [if_true, List.cons_append]
      rcases ih (i + 1) with h | h
      · left
        refine ⟨?_, ?_⟩
        · rw [← h.1]; rfl
        · rw [← h.2]; rfl
      · right
        refine ⟨?_, ?_⟩
        · rw [← h.1]; rfl
        · rw [← h.2]; rfl

theorem rollsBack_longRunningCycle (o : LongOracle) : RollsBack (longRunningCycle o) := by
  unfold longRunningCycle
  cases o.beginOk
  · refine ⟨Or.inl rfl, ?_, ?_⟩
    · intro s rest h; cases h
    · intro h; exact absurd rfl h
  · cases o.selectOk
    · refine ⟨Or.inr rfl, ?_, ?_⟩
      · intro s rest h
        simp only [Bool.false_eq_true, if_false, if_true, afterFailureFrom, Event.failed,
          Option.some.injEq, Prod.mk.injEq] at h
        obtain ⟨rfl, rfl⟩ := h
        exact ⟨rfl, rfl⟩
      · intro _; rfl
    · simp only [if_true, List.append_assoc]
      have key := tx_longUpdates o
        [Event.commit, Event.log "Long transaction completed" [], Event.sleep 10000] 10 0
      have e1 : ∀ X : List Event,
          afterFailureFrom TxState.idle
            ([Event.begin true,
              Event.exec true (Stmt.selectForUpdate (Intn 100 o.selectDraw + 1)) true,
              Event.log "Holding transaction for 30 seconds..." [],
              Event.sleep 30000] ++ X) = afterFailureFrom TxState.active X := fun _ => rfl
      have e2 : ∀ X : List Event,
          txRun TxState.idle
            ([Event.begin true,
              Event.exec true (Stmt.selectForUpdate (Intn 100 o.selectDraw + 1)) true,
              Event.log "Holding transaction for 30 seconds..." [],
              Event.sleep 30000] ++ X)
            = ((txRun TxState.active X).1, Wire.begin :: (txRun TxState.active X).2) :=
        fun _ => rfl
      rw [RollsBack, e1, e2]
      rcases key with h | h
      · rw [h.1, h.2]
        refine ⟨Or.inr rfl, ?_, ?_⟩
        · intro s rest hs; cases hs
        · intro hs; exact absurd rfl hs
      · rw [h.1, h.2]
        refine ⟨Or.inr rfl, ?_, ?_⟩
        · intro s rest hs
          simp only [Option.some.injEq, Prod.mk.injEq] at hs
          obtain ⟨rfl, rfl⟩ := hs
          exact ⟨rfl, rfl⟩
        · intro _; rfl

theorem rollsBack_lockTask (g : Nat) (o : LockOracle) : RollsBack (lockTask g o) := by
  rcases o with ⟨b, f, t, td, sd, ad⟩
  cases b <;> cases f <;> cases t <;>
    refine ⟨by first | exact Or.inl rfl | exact Or.inr rfl, ?_, ?_⟩ <;>
    first
      | (intro s rest h; cases h; done)
      | (intro s rest h
         simp only [lockTask, Bool.false_eq_true, if_false, if_true, List.cons_append,
           List.nil_append, afterFailureFrom, Event.failed, Option.some.injEq,
           Prod.mk.injEq] at h
         obtain ⟨rfl, rfl⟩ := h
         exact ⟨rfl, rfl⟩)
      | (intro h; exact absurd rfl h)
      | (intro _; rfl)

theorem rollsBack_deadlockTasks (o : DeadOracle) :
    RollsBack (deadlockTask1 o) ∧ RollsBack (deadlockTask2 o) := by
  rcases o with ⟨b, f, t⟩
  cases b <;> cases f <;> cases t <;> constructor <;>
    refine ⟨by first | exact Or.inl rfl | exact Or.inr rfl, ?_, ?_⟩ <;>
    first
      | (intro s rest h; cases h; done)
      | (intro s rest h
         simp only [deadlockTask1, deadlockTask2, Bool.false_eq_true, if_false, if_true,
           List.cons_append, List.nil_append, afterFailureFrom, Event.failed,
           Option.some.injEq, Prod.mk.injEq] at h
         obtain ⟨rfl, rfl⟩ := h
         exact ⟨rfl, rfl⟩)
      | (intro h; exact absurd rfl h)
      | (intro _; rfl)

/-- C1: for `longRunningTransactions`, every `lockContentionScenario`
sub-task and both `deadlockScenarios` sub-tasks, under every outcome of
`Begin` and of the statements: the trace never ends with the transaction
open, and when a statement fails it fails inside the transaction block and
what follows sends exactly one `ROLLBACK` for it and no `COMMIT`.  In
`longRunningTransactions` a failed update is followed by `tx.Commit()`, which
on the aborted block sends that `ROLLBACK`; on the other paths it is
`tx.Rollback()`. -/
theorem failed_statement_rolls_back (lo : LongOracle) (g : Nat) (ko : LockOracle)
    (d : DeadOracle) (u : Nat → Bool) (sd : Nat) (ud : Nat → Nat) :
    RollsBack (longRunningCycle lo) ∧
    RollsBack (lockTask g ko) ∧
    RollsBack (deadlockTask1 d) ∧ RollsBack (deadlockTask2 d) ∧
    ((∃ k, k < 10 ∧ u k = false) →
      afterFailure (longRunningCycle
          { beginOk := true, selectOk := true, updateOk := u, selectDraw := sd,
            updateDraw := ud }) =
        some [Event.log "Error in long transaction update: %v" [], Event.commit,
              Event.log "Long transaction completed" [], Event.sleep 10000]) ∧
    txRun TxState.idle (longRunningCycle
        { beginOk := true, selectOk := true, updateOk := fun _ => false, selectDraw := 0,
          updateDraw := fun _ => 0 }) = (TxState.finished, [Wire.begin, Wire.rollback]) ∧
    txRun TxState.idle (longRunningCycle
        { beginOk := true, selectOk := true, updateOk := fun _ => true, selectDraw := 0,
          updateDraw := fun _ => 0 }) = (TxState.finished, [Wire.begin, Wire.commit]) := by
  refine ⟨rollsBack_longRunningCycle lo, rollsBack_lockTask g ko,
    (rollsBack_deadlockTasks d).1, (rollsBack_deadlockTasks d).2, ?_, rfl, rfl⟩
  intro hk
  simp only [longRunningCycle, if_true, List.append_assoc]
  have h1 := afterFailure_longUpdates
    { beginOk := true, selectOk := true, updateOk := u, selectDraw := sd, updateDraw := ud }
    10 0 (by simpa using hk)
  simp only [List.cons_append, List.nil_append, afterFailure, Event.failed,
    Bool.false_eq_true, if_false]
  change afterFailure (longUpdates _ 10 0 ++ _) = _
  rw [afterFailure_append, h1]
  rfl

/-- A failed `SELECT ... FOR UPDATE` and a failed update of
`longRunningTransactions`, each at a concrete oracle. -/
theorem failed_statement_rolls_back_witness :
    afterFailure (longRunningCycle
        { beginOk := true, selectOk := true, updateOk := fun k => decide (k < 3)
          selectDraw := 0, updateDraw := fun _ => 0 }) =
      some [Event.log "Error in long transaction update: %v" [], Event.commit,
            Event.log "Long transaction completed" [], Event.sleep 10000] :=
  (failed_statement_rolls_back
    { beginOk := true, selectOk := true, updateOk := fun _ => true, selectDraw := 0,
      updateDraw := fun _ => 0 } 0
    { beginOk := true, selectOk := true, updateOk := true, targetDraw := 0, sleepDraw := 0,
      amountDraw := 0 }
    { beginOk := true, firstOk := true, secondOk := true }
    (fun k => decide (k < 3)) 0 (fun _ => 0)).2.2.2.2.1 ⟨3, by decide, by decide⟩

/-! ## Cycles of the fan-out generators -/

theorem done_mem_of_getLast (l p q : List Event) (hl : l.getLast? = some Event.done)
    (h : p ++ q = l) (hq : q ≠ []) : Event.done ∈ q := by
  rw [← h, List.getLast?_append_of_ne_nil p hq] at hl
  exact List.mem_of_getLast?_eq_some hl

theorem Fan.holds_init (F : Fan) : Fan.Inv F FanState.init :=
  ⟨rfl, Nat.zero_le _, fun _ => ⟨rfl, rfl⟩,
   fun h => (by rcases h with h | h <;> cases h),
   fun h => (by cases h), fun h => absurd rfl h,
   fun j t h => (by simp [FanState.init] at h)⟩

theorem Fan.holds_step (F : Fan) (hF : F.Ends) (c c1 : FanState) (ch : Choice)
    (hc : Fan.Inv F c) (hs : F.step c ch = some c1) : Fan.Inv F c1 := by
  cases ch with
  | generator =>
    simp only [Fan.step] at hs
    cases hpc : c.pc
    · simp only [hpc, Option.some.injEq] at hs
      subst hs
      have h0 := hc.st hpc
      have hi : c.i = 0 := by rw [← hc.len, h0.1]; rfl
      refine ⟨hc.len, hc.ile, fun h => (by cases h),
        fun h => (by rcases h with h | h <;> cases h), fun h => (by cases h), ?_, hc.split⟩
      intro _
      simp only [h0.1, hi, List.map_nil, List.sum_nil, Nat.sub_zero, Nat.zero_add]
    · by_cases hi : c.i < F.k
      · simp only [hpc, hi, if_true, Option.some.injEq] at hs
        subst hs
        have hwg := hc.wg (by rw [hpc]; decide)
        refine ⟨by simp [hc.len], hi, fun h => (by cases h),
          fun h => (by rcases h with h | h <;> cases h), fun h => (by cases h), ?_, ?_⟩
        · intro _
          simp only [List.map_append, List.sum_append, List.map_cons, List.map_nil,
            List.sum_cons, List.sum_nil, pendingDone, (hF c.i).1]
          simp only [pendingDone] at hwg
          cases hu : F.upfront
          · simp only [hu, Bool.false_eq_true, if_false] at hwg ⊢
            omega
          · simp only [hu, if_true] at hwg ⊢
            omega
        · intro j t h
          simp only at h
          by_cases hj : j < c.tasks.length
          · rw [List.getElem?_append_left hj] at h
            exact hc.split j t h
          · have hj2 : c.tasks.length ≤ j := Nat.le_of_not_lt hj
            rw [List.getElem?_append_right hj2] at h
            have hj3 : j - c.tasks.length = 0 := by
              by_contra hne
              have : ([(([] : List Event), F.body c.i)] :
                  List (List Event × List Event))[j - c.tasks.length]? = none := by
                apply List.getElem?_eq_none
                simp only [List.length_singleton]
                omega
              rw [this] at h
              cases h
            rw [hj3] at h
            simp only [List.getElem?_cons_zero, Option.some.injEq] at h
            subst h
            have : j = c.i := by have := hc.len; omega
            subst this
            rfl
      · simp only [hpc, hi, if_false, Option.some.injEq] at hs
        subst hs
        have hwg := hc.wg (by rw [hpc]; decide)
        exact ⟨hc.len, hc.ile, fun h => (by cases h),
          fun _ => (by have := hc.ile; simp only at hi ⊢; omega),
          fun h => (by cases h), fun _ => hwg, hc.split⟩
    · by_cases hw : c.wg = 0
      · simp only [hpc, hw, if_true, Option.some.injEq] at hs
        subst hs
        have hwg := hc.wg (by rw [hpc]; decide)
        rw [hw] at hwg
        exact ⟨hc.len, hc.ile, fun h => (by cases h),
          fun _ => hc.pcs (Or.inl hpc), fun _ => ⟨rfl, rfl⟩, fun _ => hwg, hc.split⟩
      · simp only [hpc, hw, if_false] at hs
        cases hs
    · simp only [hpc] at hs
      cases hs
  | task j =>
    simp only [Fan.step] at hs
    rcases ht : c.tasks[j]? with _ | ⟨p, _ | ⟨e, rest⟩⟩
    · simp only [ht] at hs; cases hs
    · simp only [ht] at hs; cases hs
    · simp only [ht, Option.some.injEq] at hs
      subst hs
      have hsum := pending_set c.tasks j p e rest ht
      have hns : c.pc ≠ FanPc.start := by
        intro h
        have := (hc.st h).1
        rw [this] at ht
        cases ht
      have hwg := hc.wg hns
      refine ⟨by simp [hc.len], hc.ile, fun h => absurd h hns, hc.pcs, ?_, ?_, ?_⟩
      · intro h
        have := hc.cool h
        refine ⟨?_, this.2⟩
        simp only [wgAfter_eq]
        omega
      · intro _
        simp only [wgAfter_eq]
        split_ifs at hsum hwg ⊢ <;> omega
      · intro k t h
        simp only [List.getElem?_set] at h
        by_cases hk : j = k
        · subst hk
          have hlt : j < c.tasks.length := by
            by_contra hge
            rw [List.getElem?_eq_none (Nat.le_of_not_lt hge)] at ht
            cases ht
          simp only [if_true, hlt, Option.some.injEq] at h
          subst h
          have := hc.split j _ ht
          simpa using this
        · simp only [hk, if_false] at h
          exact hc.split k t h

theorem Fan.holds_run (F : Fan) (hF : F.Ends) (s : List Choice) :
    ∀ (c c1 : FanState), Fan.Inv F c → Fan.run F s c = some c1 → Fan.Inv F c1 := by
  induction s with
  | nil =>
    intro c c1 hc h
    simp only [Fan.run, Option.some.injEq] at h
    subst h; exact hc
  | cons ch s ih =>
    intro c c1 hc h
    unfold Fan.run at h
    cases hs : F.step c ch with
    | none => simp only [hs] at h; cases h
    | some c2 =>
      simp only [hs] at h
      exact ih c2 c1 (Fan.holds_step F hF c c2 ch hc hs) h

/-- The generator of a fan-out scenario is in its cooldown sleep only when
every one of its sub-tasks has run its whole body. -/
theorem Fan.cooldown_all_returned (F : Fan) (hF : F.Ends) (sched : List Choice)
    (c : FanState) (h : Fan.run F sched FanState.init = some c)
    (hpc : c.pc = FanPc.cooldown) :
    c.slept = some F.cooldownMs ∧ c.tasks.length = F.k ∧
    ∀ j, j < F.k → c.tasks[j]? = some (F.body j, []) := by
  have hinv := Fan.holds_run F hF sched FanState.init c (Fan.holds_init F) h
  have hi : c.i = F.k := hinv.pcs (Or.inr hpc)
  have hl : c.tasks.length = F.k := by rw [hinv.len, hi]
  refine ⟨(hinv.cool hpc).2, hl, ?_⟩
  intro j hj
  have hjl : j < c.tasks.length := by omega
  have hget : c.tasks[j]? = some (c.tasks[j]) := List.getElem?_eq_getElem hjl
  generalize c.tasks[j] = t at hget
  have hsplit := hinv.split j t hget
  have hsum : (c.tasks.map pendingDone).sum = 0 := by
    have h1 := hinv.wg (by rw [hpc]; decide)
    have h2 := (hinv.cool hpc).1
    omega
  have hz := eq_zero_of_sum_eq_zero pendingDone c.tasks hsum t
    (List.mem_iff_getElem?.2 ⟨j, hget⟩)
  have hnil : t.2 = [] := by
    by_contra hne
    have := done_mem_of_getLast (F.body j) t.1 t.2 (hF j).2 hsplit hne
    have hpos := List.count_pos_iff.2 this
    simp only [pendingDone] at hz
    omega
  rw [hget]
  rcases t with ⟨t1, t2⟩
  simp only at hnil hsplit
  subst hnil
  rw [List.append_nil] at hsplit
  rw [hsplit]

theorem ends_lockFan (o : Nat → LockOracle) : (lockFan o).Ends :=
  fun j => ⟨pendingDone_lockTask j (o j), getLast_lockTask j (o j)⟩

theorem ends_deadlockFan (o1 o2 : DeadOracle) : (deadlockFan o1 o2).Ends := by
  intro j
  rcases o1 with ⟨b1, f1, t1⟩
  rcases o2 with ⟨b2, f2, t2⟩
  by_cases hj : j = 0
  · simp only [deadlockFan, hj, if_true]
    cases b1 <;> cases f1 <;> cases t1 <;> exact ⟨by simp [deadlockTask1], rfl⟩
  · simp only [deadlockFan, hj, if_false]
    cases b2 <;> cases f2 <;> cases t2 <;> exact ⟨by simp [deadlockTask2], rfl⟩

theorem ends_poolFan (ok : Nat → Bool) (rows : Nat → Nat) : (poolFan ok rows).Ends := by
  intro j
  simp only [poolFan, poolTask]
  cases ok j
  · exact ⟨by simp, rfl⟩
  · refine ⟨?_, ?_⟩
    · simp [List.count_replicate]
    · simp only [if_true]
      rw [List.getLast?_append_of_ne_nil _ (by simp)]
      rfl

/-! ## Abandoning a cycle -/

theorem afterFailureFrom_none (t : List Event) (h : ∀ e ∈ t, e.failed = false) :
    ∀ s, afterFailureFrom s t = none := by
  induction t with
  | nil => intro s; rfl
  | cons e t ih =>
    intro s
    simp only [afterFailureFrom, h e (List.mem_cons_self e t), Bool.false_eq_true, if_false]
    exact ih (fun x hx => h x (List.mem_cons_of_mem e hx)) _

theorem abandons_of_no_failure (t : List Event) (h : ∀ e ∈ t, e.failed = false) :
    abandons t = true := by
  simp only [abandons, afterFailureFrom_none t h]

theorem abandons_longRunningCycle (o : LongOracle) : abandons (longRunningCycle o) = true := by
  unfold longRunningCycle
  cases o.beginOk
  · rfl
  · cases o.selectOk
    · rfl
    · simp only [if_true, List.append_assoc]
      have key := tx_longUpdates o
        [Event.commit, Event.log "Long transaction completed" [], Event.sleep 10000] 10 0
      have e1 : ∀ X : List Event,
          afterFailureFrom TxState.idle
            ([Event.begin true,
              Event.exec true (Stmt.selectForUpdate (Intn 100 o.selectDraw + 1)) true,
              Event.log "Holding transaction for 30 seconds..." [],
              Event.sleep 30000] ++ X) = afterFailureFrom TxState.active X := fun _ => rfl
      rw [abandons, e1]
      rcases key with h | h
      · rw [h.1]; rfl
      · rw [h.1]; rfl

theorem abandons_poolTask (c : Nat) (ok : Bool) (r : Nat) : abandons (poolTask c ok r) = true := by
  unfold poolTask
  cases ok
  · rfl
  · apply abandons_of_no_failure
    intro e he
    simp only [if_true] at he
    rcases List.mem_append.1 he with h | h
    · rcases List.mem_cons.1 h with rfl | h
      · rfl
      · rw [List.eq_of_mem_replicate h]; rfl
    · simp only [List.mem_cons, List.mem_singleton, List.not_mem_nil, or_false] at h
      rcases h with rfl | rfl | rfl | rfl <;> rfl

theorem abandons_slowScanCycle (o : SlowOracle) : abandons (slowScanCycle o) = true := by
  unfold slowScanCycle
  cases o.queryOk
  · rfl
  · apply abandons_of_no_failure
    intro e he
    simp only [if_true, List.mem_append, List.mem_cons, List.mem_singleton,
      List.not_mem_nil, or_false] at he
    rcases he with ((rfl | rfl) | (h | (rfl | rfl))) | rfl
    · rfl
    · rfl
    · exact failed_plain_rows e (noStmt_slowRows o.rows 0 e h)
    · rfl
    · rfl
    · rfl

theorem getLast_longRunningCycle (o : LongOracle) :
    (longRunningCycle o).getLast? = some (Event.sleep 5000) ∨
    (longRunningCycle o).getLast? = some (Event.sleep 10000) := by
  unfold longRunningCycle
  cases o.beginOk
  · left; rfl
  · cases o.selectOk
    · left; rfl
    · right
      simp only [if_true]
      rw [List.getLast?_append_of_ne_nil _ (by simp)]
      rfl

/-- C2 (counterexample): a cycle of `inefficientQueries` whose first query
fails logs the error and then still sends the second query. -/
theorem inefficientQueries_continues_after_failure :
    inefficientCycle { firstOk := false, rows := [], secondOk := true } =
      [Event.query none Stmt.joinOrders false,
       Event.log "Error in inefficient query: %v" [],
       Event.query none Stmt.scanLarge true,
       Event.sleep 20000] ∧
    abandons (inefficientCycle { firstOk := false, rows := [], secondOk := true }) = false :=
  ⟨rfl, rfl⟩

/-- C2 (amended): for a cycle in which every call returns, with or without
an error.  In every generator each failed statement has a log line as the
next action (the `cancel()` of `slowTableScans` apart).
`longRunningTransactions`, every sub-task of `lockContentionScenario`,
`deadlockScenarios` and `connectionPoolExhaustion`, and `slowTableScans`
abandon at the first failed statement: what follows contains the log line
and sends nothing to the database except the rollback of the open
transaction.  The two cycle goroutines then end in their cooldown sleep; a
sub-task ends with `wg.Done()`, and the generator of each of the three
fan-out scenarios is in its cooldown sleep only when all its sub-tasks have
run to their end.  `heavyWriteOperations` and `inefficientQueries` do not
abandon: a cycle sends the same 1501 (resp. 2) statements whatever their
outcomes, each once, and ends with the cooldown sleep. -/
theorem failure_handling_by_generator (lo : LongOracle) (g : Nat) (ko : LockOracle)
    (d : DeadOracle) (c r : Nat) (ok : Bool) (so : SlowOracle) (ho : HeavyOracle)
    (io : IneffOracle) (os : Nat → LockOracle) (d1 d2 : DeadOracle) (oks : Nat → Bool)
    (rs : Nat → Nat) :
    (failuresLogged (longRunningCycle lo) = true ∧
     failuresLogged (lockTask g ko) = true ∧
     failuresLogged (inefficientCycle io) = true ∧
     failuresLogged (poolTask c ok r) = true ∧
     failuresLogged (heavyWriteCycle ho) = true ∧
     failuresLogged (deadlockTask1 d) = true ∧ failuresLogged (deadlockTask2 d) = true ∧
     failuresLogged (slowScanCycle so) = true) ∧
    (abandons (longRunningCycle lo) = true ∧
     abandons (lockTask g ko) = true ∧
     abandons (deadlockTask1 d) = true ∧ abandons (deadlockTask2 d) = true ∧
     abandons (poolTask c ok r) = true ∧
     abandons (slowScanCycle so) = true) ∧
    (((longRunningCycle lo).getLast? = some (Event.sleep 5000) ∨
      (longRunningCycle lo).getLast? = some (Event.sleep 10000)) ∧
     (∃ pre, slowScanCycle so = pre ++ [Event.sleep 25000]) ∧
     (lockTask g ko).getLast? = some Event.done ∧
     (deadlockTask1 d).getLast? = some Event.done ∧
     (deadlockTask2 d).getLast? = some Event.done ∧
     (poolTask c ok r).getLast? = some Event.done) ∧
    (∀ F, F = lockFan os ∨ F = deadlockFan d1 d2 ∨ F = poolFan oks rs →
      ∀ sched st, Fan.run F sched FanState.init = some st → st.pc = FanPc.cooldown →
        st.slept = some F.cooldownMs ∧ st.tasks.length = F.k ∧
        ∀ j, j < F.k → st.tasks[j]? = some (F.body j, [])) ∧
    (stmts (heavyWriteCycle ho) =
        ((List.range 1000).map fun k => auditInsert ho (0 + k))
        ++ ((List.range 500).map fun k => balanceUpdate ho (0 + k))
        ++ [Stmt.deleteOldAudit] ∧
     (stmts (heavyWriteCycle ho)).length = 1501 ∧
     (∃ pre, heavyWriteCycle ho =
        pre ++ [Event.log "Completed heavy write cycle" [], Event.sleep 10000]) ∧
     stmts (inefficientCycle io) = [Stmt.joinOrders, Stmt.scanLarge] ∧
     (∃ pre, inefficientCycle io = pre ++ [Event.sleep 20000])) := by
  have hfl := fl_cycles lo io c r ok ho so
  refine ⟨⟨hfl.1, ?_, hfl.2.1, hfl.2.2.1, hfl.2.2.2.1, ?_, ?_, hfl.2.2.2.2⟩,
    ⟨abandons_longRunningCycle lo, ?_, ?_, ?_, abandons_poolTask c ok r,
      abandons_slowScanCycle so⟩,
    ⟨getLast_longRunningCycle lo, ⟨_, rfl⟩, getLast_lockTask g ko, ?_, ?_,
      ((ends_poolFan (fun _ => ok) (fun _ => r)) c).2⟩,
    ?_,
    ⟨stmts_heavyWriteCycle ho, ?_, ⟨_, rfl⟩, stmts_inefficientCycle io, ⟨_, rfl⟩⟩⟩
  · rcases ko with ⟨b, f, t, _, _, _⟩
    cases b <;> cases f <;> cases t <;> rfl
  · rcases d with ⟨b, f, t⟩
    cases b <;> cases f <;> cases t <;> rfl
  · rcases d with ⟨b, f, t⟩
    cases b <;> cases f <;> cases t <;> rfl
  · rcases ko with ⟨b, f, t, _, _, _⟩
    cases b <;> cases f <;> cases t <;> rfl
  · rcases d with ⟨b, f, t⟩
    cases b <;> cases f <;> cases t <;> rfl
  · rcases d with ⟨b, f, t⟩
    cases b <;> cases f <;> cases t <;> rfl
  · rcases d with ⟨b, f, t⟩
    cases b <;> cases f <;> cases t <;> rfl
  · rcases d with ⟨b, f, t⟩
    cases b <;> cases f <;> cases t <;> rfl
  · rintro F (rfl | rfl | rfl) sched st hrun hpc
    · exact Fan.cooldown_all_returned _ (ends_lockFan os) sched st hrun hpc
    · exact Fan.cooldown_all_returned _ (ends_deadlockFan d1 d2) sched st hrun hpc
    · exact Fan.cooldown_all_returned _ (ends_poolFan oks rs) sched st hrun hpc
  · rw [stmts_heavyWriteCycle]
    simp

/-- A cycle of `deadlockScenarios` in which the first update of the first
sub-task fails and the second sub-task commits: the generator reaches its
30 s cooldown with both sub-tasks at their end. -/
theorem failure_handling_by_generator_witness :
    ∃ st, Fan.run (deadlockFan ⟨true, false, true⟩ ⟨true, true, true⟩) deadlockSchedule
        FanState.init = some st ∧
      st.pc = FanPc.cooldown ∧ st.slept = some 30000 ∧
      st.tasks = [(deadlockTask1 ⟨true, false, true⟩, []),
                  (deadlockTask2 ⟨true, true, true⟩, [])] ∧
      abandons (deadlockTask1 ⟨true, false, true⟩) = true :=
  ⟨_, rfl, rfl,
    ((failure_handling_by_generator
        ⟨true, true, fun _ => true, 0, fun _ => 0⟩ 0 ⟨true, true, true, 0, 0, 0⟩
        ⟨true, false, true⟩ 0 0 true ⟨true, []⟩
        ⟨fun _ => true, fun _ => true, true, fun _ => 0, fun _ => 0, fun _ => 0, fun _ => 0,
          fun _ => 0⟩
        ⟨true, [], true⟩ lockAllOk ⟨true, false, true⟩ ⟨true, true, true⟩ (fun _ => true)
        (fun _ => 0)).2.2.2.1 _ (Or.inr (Or.inl rfl)) deadlockSchedule _ rfl rfl).1,
    rfl,
    (failure_handling_by_generator
        ⟨true, true, fun _ => true, 0, fun _ => 0⟩ 0 ⟨true, true, true, 0, 0, 0⟩
        ⟨true, false, true⟩ 0 0 true ⟨true, []⟩
        ⟨fun _ => true, fun _ => true, true, fun _ => 0, fun _ => 0, fun _ => 0, fun _ => 0,
          fun _ => 0⟩
        ⟨true, [], true⟩ lockAllOk ⟨true, false, true⟩ ⟨true, true, true⟩ (fun _ => true)
        (fun _ => 0)).2.1.2.2.1⟩

/-! ## Bootstrap failure -/

/-- C5: `initializeData` runs the four `CREATE TABLE` statements of `users`,
`orders`, `audit_log` and `large_table`, and returns an error exactly when
one of them fails; it then has executed the statements up to and including
the first failing one and nothing else, and `main` ends the process with
`log.Fatal("Failed to initialize data:", err)` having started neither the
metrics goroutine nor any generator.  When it returns no error it has
executed the four `CREATE TABLE` and all 1000 + 10000 seed inserts, whatever
the outcomes of the inserts, each failed insert is followed by its log
line, and `main` starts the seven generators (all of them, in order, unless
`log.Fatal` of the metrics goroutine ends the process first). -/
theorem initializeData_error_iff (o : BootOracle) (openOk : Bool) (listen : Option Nat) :
    queries = [Table.users, Table.orders, Table.audit_log, Table.large_table] ∧
    ((initializeData o).err ≠ none ↔
      (o.createOk Table.users = false ∨ o.createOk Table.orders = false ∨
       o.createOk Table.audit_log = false ∨ o.createOk Table.large_table = false)) ∧
    (∀ t, (initializeData o).err = some t →
      ∃ pre post,
        [Table.users, Table.orders, Table.audit_log, Table.large_table] = pre ++ t :: post ∧
        (∀ u ∈ pre, o.createOk u = true) ∧
        o.createOk t = false ∧
        stmts (initializeData o).trace = (pre ++ [t]).map Stmt.createTable ∧
        (main openOk o listen).started = [] ∧
        (main openOk o listen).metrics = false ∧
        (main openOk o listen).fatal ≠ none ∧
        (main true o listen).fatal = some Fatal.bootstrap ∧
        (main true o listen).boot = (initializeData o).trace) ∧
    ((initializeData o).err = none →
      stmts (initializeData o).trace =
        [Stmt.createTable Table.users, Stmt.createTable Table.orders,
         Stmt.createTable Table.audit_log, Stmt.createTable Table.large_table]
          ++ ((List.range 1000).map fun k => userInsert o (1 + k))
          ++ ((List.range 10000).map fun k => largeInsert o (1 + k)) ∧
      failuresLogged (initializeData o).trace = true ∧
      (main true o none).fatal = none ∧
      (main true o none).metrics = true ∧
      (main true o none).started =
        [Generator.longRunningTransactions, Generator.lockContentionScenario,
         Generator.inefficientQueries, Generator.connectionPoolExhaustion,
         Generator.heavyWriteOperations, Generator.deadlockScenarios,
         Generator.slowTableScans] ∧
      (∀ k, (main true o (some k)).fatal = some Fatal.metrics ∧
        (main true o (some k)).started =
          [Generator.longRunningTransactions, Generator.lockContentionScenario,
           Generator.inefficientQueries, Generator.connectionPoolExhaustion,
           Generator.heavyWriteOperations, Generator.deadlockScenarios,
           Generator.slowTableScans].take k)) := by
  have hmem : ∀ t : Table, t ∈ queries := by
    intro t; cases t <;> simp [queries]
  have hdisj : (∃ t, o.createOk t = false) ↔
      (o.createOk Table.users = false ∨ o.createOk Table.orders = false ∨
       o.createOk Table.audit_log = false ∨ o.createOk Table.large_table = false) := by
    constructor
    · rintro ⟨t, ht⟩
      cases t
      · exact Or.inl ht
      · exact Or.inr (Or.inl ht)
      · exact Or.inr (Or.inr (Or.inl ht))
      · exact Or.inr (Or.inr (Or.inr ht))
    · rintro (h | h | h | h) <;> exact ⟨_, h⟩
  refine ⟨rfl, ?_⟩
  rcases createTables_spec o queries with ⟨pre, t, post, hts, hpre, ht, hc⟩ | ⟨hall, hc⟩
  · have herr : (initializeData o).err = some t := by simp only [initializeData, hc]
    have htr : (initializeData o).trace =
        Event.log "Initializing database tables and data..." []
          :: (pre.map (fun u => Event.exec false (Stmt.createTable u) true)
            ++ [Event.exec false (Stmt.createTable t) false]) := by
      simp only [initializeData, hc]
    refine ⟨?_, ?_, ?_⟩
    · constructor
      · intro _
        exact hdisj.1 ⟨t, ht⟩
      · intro _
        rw [herr]; simp
    · intro t1 h1
      rw [herr] at h1
      cases h1
      refine ⟨pre, post, hts, hpre, ht, ?_, ?_, ?_, ?_, ?_, ?_⟩
      · rw [htr]
        have := stmts_creates pre true
        simp only [stmts, List.filterMap_cons, List.filterMap_append, Event.stmt,
          List.filterMap_nil, List.map_append, List.map_cons, List.map_nil] at this ⊢
        rw [this]
      · cases openOk <;> simp [main, herr]
      · cases openOk <;> simp [main, herr]
      · cases openOk <;> simp [main, herr]
      · simp [main, herr]
      · simp [main, herr]
    · intro h1
      rw [herr] at h1
      cases h1
  · have hok := initializeData_of_creates o hall
    refine ⟨?_, ?_, ?_⟩
    · constructor
      · intro h; exact absurd hok.1 h
      · intro h
        obtain ⟨t, ht⟩ := hdisj.2 h
        rw [hall t (hmem t)] at ht
        cases ht
    · intro t h1
      rw [hok.1] at h1
      cases h1
    · intro _
      refine ⟨?_, ?_, by simp [main, hok.1], by simp [main, hok.1],
        by simp [main, hok.1, generators], ?_⟩
      · rw [hok.2, hc]
        have e : ∀ (a b c d e : List Event) (x : Event),
            stmts (x :: a ++ b ++ c ++ d ++ e) = stmts [x] ++ stmts a ++ stmts b ++ stmts c
              ++ stmts d ++ stmts e := by
          intro a b c d e x
          simp [stmts, List.filterMap_append, List.filterMap_cons]
          cases Event.stmt x <;> simp
        rw [e, stmts_seedUsers, stmts_seedLarge, stmts_creates]
        simp [stmts, Event.stmt, queries]
      · rw [hok.2, hc]
        exact fl_bootTrace o queries 1000 1 10000 1
      · intro k
        exact ⟨by simp [main, hok.1], by simp [main, hok.1, generators]⟩

/-- A bootstrap whose third `CREATE TABLE` fails. -/
theorem initializeData_error_iff_witness :
    (initializeData { allOk with createOk := fun t => decide (t ≠ Table.audit_log) }).err
      = some Table.audit_log ∧
    (main true { allOk with createOk := fun t => decide (t ≠ Table.audit_log) } none).fatal
      = some Fatal.bootstrap ∧
    (main true { allOk with createOk := fun t => decide (t ≠ Table.audit_log) } none).started
      = [] ∧
    (initializeData { allOk with createOk := fun t => decide (t ≠ Table.audit_log) }).err
      ≠ none :=
  ⟨rfl, rfl, rfl,
   (initializeData_error_iff { allOk with createOk := fun t => decide (t ≠ Table.audit_log) }
      true none).2.1.2 (Or.inr (Or.inr (Or.inl rfl)))⟩

end BadApp
